import Mathlib

/-!
Verification development for the `cad-camera-controls` camera controller
(`src/CADCameraControls.ts`).  The controller's vector and quaternion math is
embedded over exact rationals; where the source computes an irrational value
(`Math.sqrt`, `Math.sin`/`cos`, `Math.pow`, the three.js raycaster and
unprojection), the value is taken as an explicit auxiliary input, pinned by a
defining hypothesis (for example `len ≥ 0 ∧ len ^ 2 = normSq v` for a call to
`length()`).  The damping integrator, whose behaviour is genuinely about real
exponentials, is additionally modelled over the reals.
-/

/-- 3D vector over exact rationals, modelling the three.js `Vector3` values the
controller manipulates. -/
structure Vec3 where
  x : ℚ
  y : ℚ
  z : ℚ
deriving DecidableEq, Repr

instance : Add Vec3 := ⟨fun a b => ⟨a.x + b.x, a.y + b.y, a.z + b.z⟩⟩

instance : Sub Vec3 := ⟨fun a b => ⟨a.x - b.x, a.y - b.y, a.z - b.z⟩⟩

/-- Scalar multiple, modelling `Vector3.multiplyScalar` and the scaled part of
`addScaledVector`. -/
def Vec3.smul (t : ℚ) (v : Vec3) : Vec3 := ⟨t * v.x, t * v.y, t * v.z⟩

/-- Dot product, `Vector3.dot`. -/
def Vec3.dot (a b : Vec3) : ℚ := a.x * b.x + a.y * b.y + a.z * b.z

/-- Squared length, `Vector3.lengthSq`.  The square root itself is irrational
in general; wherever the source calls `length()` or `distanceTo()` the root is
supplied as an auxiliary input constrained against `normSq`. -/
def Vec3.normSq (v : Vec3) : ℚ := v.x * v.x + v.y * v.y + v.z * v.z

/-- Squared distance between two points (`a.distanceTo(b)`, squared). -/
def distSq (a b : Vec3) : ℚ := Vec3.normSq (a - b)

/-- `Vector3.normalize` divides by the length, leaving the zero vector
unchanged (`divideScalar(this.length() || 1)`).  The irrational length is the
explicit argument `len`; use sites constrain it by `len ≥ 0 ∧
len ^ 2 = normSq v`. -/
def normalizeWith (v : Vec3) (len : ℚ) : Vec3 :=
  if len = 0 then v else Vec3.smul (1 / len) v

/-- Quaternion, modelling three.js `Quaternion`. -/
structure Quat where
  x : ℚ
  y : ℚ
  z : ℚ
  w : ℚ
deriving DecidableEq, Repr

/-- three.js `Quaternion.multiplyQuaternions(a, b)` — the Hamilton product
`a * b`; `p.premultiply(q)` is `qmul q p`. -/
def qmul (a b : Quat) : Quat :=
  ⟨a.x * b.w + a.w * b.x + a.y * b.z - a.z * b.y,
   a.y * b.w + a.w * b.y + a.z * b.x - a.x * b.z,
   a.z * b.w + a.w * b.z + a.x * b.y - a.y * b.x,
   a.w * b.w - a.x * b.x - a.y * b.y - a.z * b.z⟩

/-- Squared norm of a quaternion. -/
def qnormSq (q : Quat) : ℚ := q.x * q.x + q.y * q.y + q.z * q.z + q.w * q.w

/-- three.js `Quaternion.setFromAxisAngle(axis, angle)`, parametrised by
`c = cos(angle/2)` and `s = sin(angle/2)` (irrational in general, always
satisfying `c ^ 2 + s ^ 2 = 1`). -/
def setFromAxisAngle (axis : Vec3) (c s : ℚ) : Quat :=
  ⟨axis.x * s, axis.y * s, axis.z * s, c⟩

/-- three.js `Vector3.applyQuaternion(q)` (the `t = 2 q×v`, `v + w t + q×t`
form used by three.js). -/
def applyQuat (q : Quat) (v : Vec3) : Vec3 :=
  let tx := 2 * (q.y * v.z - q.z * v.y)
  let ty := 2 * (q.z * v.x - q.x * v.z)
  let tz := 2 * (q.x * v.y - q.y * v.x)
  ⟨v.x + q.w * tx + q.y * tz - q.z * ty,
   v.y + q.w * ty + q.z * tx - q.x * tz,
   v.z + q.w * tz + q.x * ty - q.y * tx⟩

/-- `MathUtils.clamp(value, min, max) = Math.max(min, Math.min(max, value))`. -/
def clampQ (value lo hi : ℚ) : ℚ := max lo (min hi value)

/-- The source's `intersectRayWithPlane`: `none` when the ray is parallel to
the plane (`|denom| < PLANE_EPSILON = 1e-6`) or the intersection lies behind
the ray origin (`t < 0`), otherwise the intersection point. -/
def intersectRayWithPlane (rayOrigin rayDirection planePoint planeNormal : Vec3) : Option Vec3 :=
  let denom := Vec3.dot planeNormal rayDirection
  if |denom| < 1 / 1000000 then none
  else
    let t := Vec3.dot planeNormal (planePoint - rayOrigin) / denom
    if t < 0 then none
    else some (rayOrigin + Vec3.smul t rayDirection)

/-- Constant `WORLD_UP = (0, 1, 0)`. -/
def WORLD_UP : Vec3 := ⟨0, 1, 0⟩

/-- Constant `CAMERA_RIGHT = (1, 0, 0)`. -/
def CAMERA_RIGHT : Vec3 := ⟨1, 0, 0⟩

/-- Constant `CAMERA_UP = (0, 1, 0)`. -/
def CAMERA_UP : Vec3 := ⟨0, 1, 0⟩

/-- Camera projection kind: a three.js `PerspectiveCamera` or
`OrthographicCamera` (the `instanceof` checks in the source). -/
inductive CameraKind where
  | perspective
  | orthographic
deriving DecidableEq, Repr

/-- `ZoomMode = 'dolly' | 'fov' | 'auto'` from `types.ts`. -/
inductive ZoomMode where
  | dolly
  | fov
  | auto
deriving DecidableEq, Repr

/-- `ModifierKey = 'ctrl' | 'meta' | 'alt' | 'shift'` from `types.ts`. -/
inductive ModifierKey where
  | ctrl
  | meta
  | alt
  | shift
deriving DecidableEq, Repr

/-- The modifier-flag fields carried by a DOM `PointerEvent` or
`KeyboardEvent` (`ctrlKey`, `metaKey`, `altKey`, `shiftKey`). -/
structure ModState where
  ctrlKey : Bool
  metaKey : Bool
  altKey : Bool
  shiftKey : Bool
deriving DecidableEq, Repr

/-- The source's `hasModifier(event, key)`. -/
def hasModifier (m : ModState) (key : ModifierKey) : Bool :=
  match key with
  | .ctrl => m.ctrlKey
  | .meta => m.metaKey
  | .alt => m.altKey
  | .shift => m.shiftKey

/-- The source's `hasNoModifier(event)`. -/
def hasNoModifier (m : ModState) : Bool :=
  !m.ctrlKey && !m.metaKey && !m.altKey && !m.shiftKey

/-- One mouse binding entry `{ button, modifier? }`; the optional `'modifier'
in …` property of `InputBindings` is an `Option`. -/
structure MouseBinding where
  button : Nat
  modifier : Option ModifierKey
deriving DecidableEq, Repr

/-- `InputBindings = { rotate, pan }` from `types.ts`. -/
structure InputBindings where
  rotate : MouseBinding
  pan : MouseBinding
deriving DecidableEq, Repr

/-- A touch slot is bound to `'rotate'` or `'pan'`. -/
inductive DragMode where
  | rotate
  | pan
deriving DecidableEq, Repr

/-- `TouchBindings = { one, two, pinch }` from `types.ts`. -/
structure TouchBindings where
  one : DragMode
  two : DragMode
  pinch : Bool
deriving DecidableEq, Repr

/-- A keyboard action is `{ modifier }`, the bare `{}` or the disabled `false`
(`KeyboardAction` in `types.ts`). -/
inductive KeyboardAction where
  | withModifier (m : ModifierKey)
  | bare
  | disabled
deriving DecidableEq, Repr

/-- `KeyboardBindings = { rotate, pan, zoom }` from `types.ts`. -/
structure KeyboardBindings where
  rotate : KeyboardAction
  pan : KeyboardAction
  zoom : KeyboardAction
deriving DecidableEq, Repr

/-- `KeyboardKeys = { LEFT, UP, RIGHT, BOTTOM }` (key codes). -/
structure KeyboardKeys where
  LEFT : String
  UP : String
  RIGHT : String
  BOTTOM : String
deriving DecidableEq, Repr

/-- The `_drag` record `{ isDragging, mode, x, y }`. -/
structure DragState where
  isDragging : Bool
  mode : Option DragMode
  x : ℚ
  y : ℚ
deriving DecidableEq, Repr

/-- The camera collaborator: `position`, `quaternion`, the `fov` property of a
`PerspectiveCamera` (degrees) and the `zoom` scalar of an
`OrthographicCamera`.  `fov` stores the value the property would hold on a
perspective camera; reading it through the perspective cast is modelled by
`Camera.fovProp` below, which yields `none` (JS `undefined`) on an
orthographic camera, which has no such property. -/
structure Camera where
  kind : CameraKind
  position : Vec3
  quaternion : Quat
  fov : ℚ
  zoom : ℚ
deriving DecidableEq, Repr

/-- Reading `camera.fov` through the `(this.camera as PerspectiveCamera)` cast:
a perspective camera yields its `fov`, an orthographic camera has no `fov`
property, so the read yields `undefined` (`none`). -/
def Camera.fovProp (c : Camera) : Option ℚ :=
  if c.kind = CameraKind.perspective then some c.fov else none

/-- The notifications dispatched by the controller
(`_changeEvent`, `_startEvent`, `_endEvent`). -/
inductive Evt where
  | change
  | startEvent
  | endEvent
deriving DecidableEq, Repr

/-- A pointer event as consumed by the touch/mouse handlers (only the fields
the controller reads). -/
structure PointerEvt where
  pointerType : String
  button : Nat
  clientX : ℚ
  clientY : ℚ
  pointerId : Nat
  mods : ModState
deriving DecidableEq, Repr

/-- A keyboard event as consumed by `_onKeyDown` (only the fields read). -/
structure KeyEvt where
  code : String
  mods : ModState
deriving DecidableEq, Repr

/-- The controller state: the public configuration fields and the private
velocity / drag / pointer state of `CADCameraControls` (underscores of the
private field names are dropped; DOM-element and raycaster handles are
external and carry no modelled state). -/
structure CADCameraControls where
  camera : Camera
  pivot : Vec3
  enabled : Bool
  enableDamping : Bool
  dampingFactor : ℚ
  inputBindings : InputBindings
  touchBindings : TouchBindings
  rotateSpeed : ℚ
  panSpeed : ℚ
  zoomSpeed : ℚ
  minDistance : ℚ
  maxDistance : ℚ
  minZoom : ℚ
  maxZoom : ℚ
  zoomMode : ZoomMode
  minFov : ℚ
  maxFov : ℚ
  enableKeyboard : Bool
  keyPanSpeed : ℚ
  keyRotateSpeed : ℚ
  keyZoomSpeed : ℚ
  keys : KeyboardKeys
  drag : DragState
  rotateVelocity : ℚ × ℚ
  panVelocity : ℚ × ℚ
  dollyVelocity : ℚ
  zoomVelocity : ℚ
  fovVelocity : ℚ
  baseFov : Option ℚ
  pointers : List PointerEvt
  pinchDistance : ℚ
  keyboardBindings : KeyboardBindings
deriving DecidableEq, Repr

/-- Irrational side-values consumed by `_applyRotate`: `yc`/`ys` are
`cos`/`sin` of half the yaw angle `-dx * rotateSpeed`, `pc`/`ps` the same for
the pitch angle `-dy * rotateSpeed`, and `rightLen` the length of the
yawed camera-right vector consumed by `normalize()`. -/
structure RotAux where
  yc : ℚ
  ys : ℚ
  pc : ℚ
  ps : ℚ
  rightLen : ℚ
deriving DecidableEq, Repr

/-- The raw (pre-`normalize`) right axis `CAMERA_RIGHT.applyQuaternion(
yawQ * camera.quaternion)` computed inside `_applyRotate`. -/
def rotRightRaw (s : CADCameraControls) (a : RotAux) : Vec3 :=
  applyQuat (qmul (setFromAxisAngle WORLD_UP a.yc a.ys) s.camera.quaternion) CAMERA_RIGHT

/-- `_applyRotate(dx, dy)`: yaw about `WORLD_UP`, pitch about the freshly
yawed local right axis, rotate the pivot offset by both, premultiply the
orientation, dispatch `change`.  The trigonometric values determined by
`(dx, dy)` enter through `a : RotAux`. -/
def applyRotate (s : CADCameraControls) (a : RotAux) : CADCameraControls × List Evt :=
  let offset := s.camera.position - s.pivot
  let yawQ := setFromAxisAngle WORLD_UP a.yc a.ys
  let rightAxis := normalizeWith (rotRightRaw s a) a.rightLen
  let pitchQ := setFromAxisAngle rightAxis a.pc a.ps
  let offset2 := applyQuat pitchQ (applyQuat yawQ offset)
  let pos := s.pivot + offset2
  let q2 := qmul pitchQ (qmul yawQ s.camera.quaternion)
  ({ s with camera := { s.camera with position := pos, quaternion := q2 } }, [Evt.change])

/-- Irrational side-values consumed by `_applyPan`: `dist` is
`camera.position.distanceTo(pivot)`, `tanHalfFov` is
`Math.tan(degToRad(fov / 2))`, and `rightLen`/`upLen` are the lengths consumed
by the two `normalize()` calls. -/
structure PanAux where
  dist : ℚ
  tanHalfFov : ℚ
  rightLen : ℚ
  upLen : ℚ
deriving DecidableEq, Repr

/-- `_applyPan(dx, dy)`: choose world-units-per-pixel by camera kind and zoom
mode, move the position along the camera's local right/up axes, dispatch
`change`. -/
def applyPan (s : CADCameraControls) (dx dy : ℚ) (a : PanAux) : CADCameraControls × List Evt :=
  let worldPerPixel :=
    if s.camera.kind = CameraKind.orthographic then s.panSpeed / s.camera.zoom
    else if s.zoomMode = ZoomMode.fov ∨ s.zoomMode = ZoomMode.auto then
      2 * a.dist * a.tanHalfFov * s.panSpeed
    else a.dist * s.panSpeed
  let right := normalizeWith (applyQuat s.camera.quaternion CAMERA_RIGHT) a.rightLen
  let up := normalizeWith (applyQuat s.camera.quaternion CAMERA_UP) a.upLen
  let move := Vec3.smul (-dx * worldPerPixel) right + Vec3.smul (dy * worldPerPixel) up
  ({ s with camera := { s.camera with position := s.camera.position + move } }, [Evt.change])

/-- Irrational side-values consumed by `_applyDolly`: `rayDir` is the
raycaster's ray direction through the pointer (`setFromCamera`), `fwdLen` the
length consumed by `getWorldDirection`'s normalisation, and `nextDist` the
value of `nextFromPivot.length()`. -/
structure DollyAux where
  rayDir : Vec3
  fwdLen : ℚ
  nextDist : ℚ
deriving DecidableEq, Repr

/-- The camera's forward vector, `camera.getWorldDirection(...)`: the local
`(0, 0, -1)` rotated by the orientation and normalised. -/
def worldDirection (q : Quat) (len : ℚ) : Vec3 :=
  normalizeWith (applyQuat q ⟨0, 0, -1⟩) len

/-- The pre-clamp position `_applyDolly` arrives at: step along the forward
vector, then correct by `before - after` when both pivot-plane intersections
exist, otherwise fall back to stepping along the pointer ray. -/
def dollyNextPos (s : CADCameraControls) (step : ℚ) (a : DollyAux) : Vec3 :=
  let forward := worldDirection s.camera.quaternion a.fwdLen
  let nextPos := s.camera.position + Vec3.smul step forward
  match intersectRayWithPlane s.camera.position a.rayDir s.pivot forward with
  | some b =>
    match intersectRayWithPlane nextPos a.rayDir s.pivot forward with
    | some aft => nextPos + (b - aft)
    | none => nextPos + Vec3.smul step a.rayDir
  | none => nextPos + Vec3.smul step a.rayDir

/-- `_applyDolly(step, pointer)`: no-op for orthographic cameras; otherwise
move to `dollyNextPos`, then clamp the pivot distance to
`[minDistance, maxDistance]` by rescaling the pivot offset, and dispatch
`change`. -/
def applyDolly (s : CADCameraControls) (step : ℚ) (a : DollyAux) : CADCameraControls × List Evt :=
  if s.camera.kind = CameraKind.orthographic then (s, [])
  else
    let nextPos := dollyNextPos s step a
    let nextFromPivot := nextPos - s.pivot
    let nextDistance := a.nextDist
    let clampedDistance := clampQ nextDistance s.minDistance s.maxDistance
    let nextPos2 :=
      if nextDistance > 0 ∧ clampedDistance ≠ nextDistance then
        s.pivot + Vec3.smul (clampedDistance / nextDistance) nextFromPivot
      else nextPos
    ({ s with camera := { s.camera with position := nextPos2 } }, [Evt.change])

/-- Irrational side-values consumed by `_applyZoom`: the unprojections of the
pointer before and after the zoom change (`Vector3.unproject`, external
three.js projection math). -/
structure ZoomAux where
  before : Vec3
  after : Vec3
deriving DecidableEq, Repr

/-- `_applyZoom(factor, pointer)` (orthographic): clamp `zoom * factor` to
`[minZoom, maxZoom]`, translate the position by `before - after` so the
anchor stays fixed, dispatch `change`. -/
def applyZoom (s : CADCameraControls) (factor : ℚ) (a : ZoomAux) : CADCameraControls × List Evt :=
  let zoom2 := clampQ (s.camera.zoom * factor) s.minZoom s.maxZoom
  let pos2 := s.camera.position - a.after + a.before
  ({ s with camera := { s.camera with zoom := zoom2, position := pos2 } }, [Evt.change])

/-- Irrational side-values consumed by `_applyFovZoom`: `fwdLen` for
`getWorldDirection`, and the raycaster ray directions through the pointer
before (`rayBefore`) and after (`rayAfter`) the fov change. -/
structure FovAux where
  fwdLen : ℚ
  rayBefore : Vec3
  rayAfter : Vec3
deriving DecidableEq, Repr

/-- `_applyFovZoom(factor, pointer, maxFov?)`: clamp `fov / factor` to
`[minFov, maxFov ?? this.maxFov]`, and when both pivot-plane intersections
succeed translate the position by `before - after`; dispatch `change`. -/
def applyFovZoom (s : CADCameraControls) (factor : ℚ) (maxFovArg : Option ℚ) (a : FovAux) :
    CADCameraControls × List Evt :=
  let forward := worldDirection s.camera.quaternion a.fwdLen
  let hasBefore := intersectRayWithPlane s.camera.position a.rayBefore s.pivot forward
  let fov2 := clampQ (s.camera.fov / factor) s.minFov (maxFovArg.getD s.maxFov)
  let pos2 :=
    match hasBefore with
    | some b =>
      match intersectRayWithPlane s.camera.position a.rayAfter s.pivot forward with
      | some aft => s.camera.position + b - aft
      | none => s.camera.position
    | none => s.camera.position
  ({ s with camera := { s.camera with fov := fov2, position := pos2 } }, [Evt.change])

/-- The auto-mode reversal test `perspCam.fov < this._baseFov - FOV_EPSILON`
(`FOV_EPSILON = 0.01`).  When `_baseFov` is `undefined` (`none`) the JS
comparison against `NaN` is false. -/
def fovBelowBase (fov : ℚ) (baseFov : Option ℚ) : Bool :=
  match baseFov with
  | some b => fov < b - 1 / 100
  | none => false

/-- Irrational side-values for one zoom tick (`_applyScrollZoom` /
`_applyKeyZoom`): `scale` is `Math.pow(ZOOM_BASE, …)` (an arbitrary positive
real, `< 1` exactly when the exponent is positive), `dist` is
`camera.position.distanceTo(pivot)`, and the remaining fields feed whichever
primitive the tick dispatches to. -/
structure ScrollAux where
  scale : ℚ
  dist : ℚ
  dollyA : DollyAux
  zoomA : ZoomAux
  fovA : FovAux
deriving DecidableEq, Repr

/-- Shared dispatch body of `_applyScrollZoom` and `_applyKeyZoom` after the
tick's `scale` has been computed; `isZoomIn` is `rawDelta > 0` (scroll) or
`direction > 0` (key).  Orthographic cameras always route to `_applyZoom`;
perspective cameras route by `zoomMode`, with the `'auto'` policy deciding
from the current distance (zoom in) or current fov against the captured base
fov (zoom out). -/
def zoomDispatch (s : CADCameraControls) (isZoomIn : Bool) (a : ScrollAux) :
    CADCameraControls × List Evt :=
  let scale := a.scale
  let factor := 1 / scale
  if s.camera.kind = CameraKind.orthographic then
    let r := applyZoom s factor a.zoomA
    ({ r.1 with zoomVelocity := factor }, r.2)
  else if s.zoomMode = ZoomMode.fov then
    let r := applyFovZoom s factor none a.fovA
    ({ r.1 with fovVelocity := factor }, r.2)
  else if s.zoomMode = ZoomMode.auto then
    let distance := a.dist
    if isZoomIn then
      if distance ≤ s.minDistance + 1 then
        let r := applyFovZoom s factor none a.fovA
        ({ r.1 with fovVelocity := factor }, r.2)
      else
        let step := distance * (1 - scale)
        let r := applyDolly s step a.dollyA
        ({ r.1 with dollyVelocity := step }, r.2)
    else
      if fovBelowBase s.camera.fov s.baseFov then
        let r := applyFovZoom s factor s.baseFov a.fovA
        ({ r.1 with fovVelocity := factor }, r.2)
      else
        let step := distance * (1 - scale)
        let r := applyDolly s step a.dollyA
        ({ r.1 with dollyVelocity := step }, r.2)
  else
    let distance := a.dist
    let step := distance * (1 - scale)
    let r := applyDolly s step a.dollyA
    ({ r.1 with dollyVelocity := step }, r.2)

/-- `_applyScrollZoom(rawDelta, factorScale, pointer)`.  The tick's
`scale = 0.95 ^ (zoomSpeed * rawDelta * 0.01 * factorScale * dampingScale)`
is irrational and enters through `a.scale`; the branch on the sign of
`rawDelta` is taken here. -/
def applyScrollZoom (s : CADCameraControls) (rawDelta : ℚ) (a : ScrollAux) :
    CADCameraControls × List Evt :=
  zoomDispatch s (rawDelta > 0) a

/-- `_applyKeyZoom(direction)`: identical dispatch with the pointer fixed at
the viewport centre and `scale = 0.95 ^ (keyZoomSpeed \* direction \*
dampingScale)`. -/
def applyKeyZoom (s : CADCameraControls) (direction : ℚ) (a : ScrollAux) :
    CADCameraControls × List Evt :=
  zoomDispatch s (direction > 0) a

/-- The pan/rotate match computed at the top of `_onPointerDown` for a mouse
event: `(panMode, rotateMode)`.  Pan wins when its button matches and its
optional modifier (if present) is held; rotate matches its button only when
pan did not. -/
def pointerDownMatch (s : CADCameraControls) (e : PointerEvt) : Bool × Bool :=
  let modOk :=
    match s.inputBindings.pan.modifier with
    | none => true
    | some m => hasModifier e.mods m
  let panMode := (e.button == s.inputBindings.pan.button) && modOk
  let rotateMode := (e.button == s.inputBindings.rotate.button) && !panMode
  (panMode, rotateMode)

/-- `_onTouchStart(event)`: record the pointer; a first touch starts a drag in
the `touchBindings.one` mode and resets all five velocity channels; a second
touch switches to the `two` mode at the finger midpoint and captures the
pinch distance (`_getPointerDistance()`, irrational, supplied as
`pinchDist`). -/
def onTouchStart (s : CADCameraControls) (e : PointerEvt) (pinchDist : ℚ) :
    CADCameraControls × List Evt :=
  let pointers := s.pointers ++ [e]
  if pointers.length = 1 then
    ({ s with
       pointers := pointers,
       drag := { isDragging := true, mode := some s.touchBindings.one,
                 x := e.clientX, y := e.clientY },
       rotateVelocity := (0, 0), panVelocity := (0, 0),
       dollyVelocity := 0, zoomVelocity := 1, fovVelocity := 1 }, [Evt.startEvent])
  else if pointers.length = 2 then
    match pointers with
    | p0 :: p1 :: _ =>
      ({ s with
         pointers := pointers,
         drag := { s.drag with
                   mode := some s.touchBindings.two,
                   x := (p0.clientX + p1.clientX) / 2,
                   y := (p0.clientY + p1.clientY) / 2 },
         pinchDistance := pinchDist }, [])
    | _ => ({ s with pointers := pointers }, [])
  else ({ s with pointers := pointers }, [])

/-- `_onPointerDown(event)`: route touch pointers to `_onTouchStart`; for a
mouse event matching a binding, start the drag, reset all five velocity
channels to rest and dispatch `start`. -/
def onPointerDown (s : CADCameraControls) (e : PointerEvt) (pinchDist : ℚ) :
    CADCameraControls × List Evt :=
  if !s.enabled then (s, [])
  else if e.pointerType = "touch" then onTouchStart s e pinchDist
  else
    let pm := pointerDownMatch s e
    if !pm.1 && !pm.2 then (s, [])
    else
      ({ s with
         drag := { isDragging := true,
                   mode := some (if pm.1 then DragMode.pan else DragMode.rotate),
                   x := e.clientX, y := e.clientY },
         rotateVelocity := (0, 0), panVelocity := (0, 0),
         dollyVelocity := 0, zoomVelocity := 1, fovVelocity := 1 }, [Evt.startEvent])

/-- `_matchAction(action, event)`. -/
def matchAction (action : KeyboardAction) (m : ModState) : Bool :=
  match action with
  | .disabled => false
  | .withModifier k => hasModifier m k
  | .bare => hasNoModifier m

/-- Irrational side-values for one `_onKeyDown` dispatch: `pixelDelta` is the
rotate branch's `(2π * keyRotateSpeed / height) / rotateSpeed`, and the
remaining fields feed whichever primitive the key action invokes. -/
structure KeyAux where
  pixelDelta : ℚ
  rotA : RotAux
  panA : PanAux
  scrollA : ScrollAux
deriving DecidableEq, Repr

/-- `_onKeyDown(event)`: for a recognised arrow key, try the zoom binding
first (UP/BOTTOM only), then rotate, then pan; a matching action applies one
tick, seeds only its own velocity channel, and dispatches `start` followed by
`end`. -/
def onKeyDown (s : CADCameraControls) (e : KeyEvt) (a : KeyAux) :
    CADCameraControls × List Evt :=
  if !s.enabled || !s.enableKeyboard then (s, [])
  else
    let code := e.code
    if code ≠ s.keys.LEFT ∧ code ≠ s.keys.UP ∧ code ≠ s.keys.RIGHT ∧ code ≠ s.keys.BOTTOM then
      (s, [])
    else
      let bindings := s.keyboardBindings
      let isZoom := matchAction bindings.zoom e.mods
      if isZoom then
        if code ≠ s.keys.UP ∧ code ≠ s.keys.BOTTOM then (s, [])
        else
          let direction : ℚ := if code = s.keys.UP then 1 else -1
          let r := applyKeyZoom s direction a.scrollA
          (r.1, r.2 ++ [Evt.startEvent, Evt.endEvent])
      else
        let isRotate := matchAction bindings.rotate e.mods
        let isPan := matchAction bindings.pan e.mods
        if !isRotate && !isPan then (s, [])
        else if isRotate && !isPan then
          let pixelDelta := a.pixelDelta
          let dx := if code = s.keys.RIGHT then -pixelDelta
                    else if code = s.keys.LEFT then pixelDelta else 0
          let dy := if code = s.keys.BOTTOM then -pixelDelta
                    else if code = s.keys.UP then pixelDelta else 0
          let r := applyRotate s a.rotA
          ({ r.1 with rotateVelocity := (dx, dy) }, r.2 ++ [Evt.startEvent, Evt.endEvent])
        else
          let dx := if code = s.keys.RIGHT then -s.keyPanSpeed
                    else if code = s.keys.LEFT then s.keyPanSpeed else 0
          let dy := if code = s.keys.BOTTOM then -s.keyPanSpeed
                    else if code = s.keys.UP then s.keyPanSpeed else 0
          let r := applyPan s dx dy a.panA
          ({ r.1 with panVelocity := (dx, dy) }, r.2 ++ [Evt.startEvent, Evt.endEvent])

/-- The three configuration faults `validateKeyboardBindings` can throw,
as a sum type in place of the thrown `Error` messages. -/
inductive BindingError where
  | noActiveAction
  | duplicateModifier (m : ModifierKey)
  | multipleBareActions
deriving DecidableEq, Repr

/-- The loop body of `validateKeyboardBindings`: walk the active actions,
throwing on a repeated modifier, counting bare actions. -/
def checkActive : List KeyboardAction → List ModifierKey → Nat → Except BindingError Nat
  | [], _, bare => Except.ok bare
  | KeyboardAction.withModifier m :: rest, mods, bare =>
    if m ∈ mods then Except.error (BindingError.duplicateModifier m)
    else checkActive rest (mods ++ [m]) bare
  | KeyboardAction.bare :: rest, mods, bare => checkActive rest mods (bare + 1)
  | KeyboardAction.disabled :: rest, mods, bare => checkActive rest mods bare

/-- `validateKeyboardBindings(bindings)`: filter the active actions, throw on
zero active actions, on a duplicate modifier, or on more than one bare
action. -/
def validateKeyboardBindings (b : KeyboardBindings) : Except BindingError Unit :=
  let actions := [b.rotate, b.pan, b.zoom]
  let active := actions.filter (fun a => a ≠ KeyboardAction.disabled)
  if active.length = 0 then Except.error BindingError.noActiveAction
  else
    match checkActive active [] 0 with
    | Except.error e => Except.error e
    | Except.ok bareCount =>
      if bareCount > 1 then Except.error BindingError.multipleBareActions
      else Except.ok ()

/-- The `keyboardBindings` setter: validate, and store the new value only when
validation does not throw (a throw propagates to the caller and leaves the
stored bindings unchanged). -/
def setKeyboardBindings (s : CADCameraControls) (v : KeyboardBindings) :
    CADCameraControls × Option BindingError :=
  match validateKeyboardBindings v with
  | Except.error e => (s, some e)
  | Except.ok _ => ({ s with keyboardBindings := v }, none)

/-- `resetBaseFov()`: `this._baseFov = (this.camera as PerspectiveCamera).fov`
— the unconditional read through the perspective cast, `undefined` (`none`)
for an orthographic camera. -/
def resetBaseFov (s : CADCameraControls) : CADCameraControls :=
  { s with baseFov := s.camera.fovProp }

/-- The constructor's `_baseFov` initialisation:
`camera instanceof PerspectiveCamera ? camera.fov : DEFAULT_MAX_FOV` with
`DEFAULT_MAX_FOV = 120`. -/
def initBaseFov (camera : Camera) : Option ℚ :=
  if camera.kind = CameraKind.perspective then some camera.fov else some 120

section DampingLayer

open scoped Classical

/-- The per-frame damping coefficient computed at the top of `update()`:
`Math.pow(1 - clamp(dampingFactor, MIN_DAMPING, 1), deltaFrames)` with
`deltaFrames = Math.max(0.001, deltaSeconds * 60)` and `MIN_DAMPING = 0.0001`,
over the reals, `Math.pow` being real exponentiation. -/
noncomputable def dampingCoeff (dampingFactor deltaSeconds : ℝ) : ℝ :=
  (1 - max 0.0001 (min 1 dampingFactor)) ^ (max 0.001 (deltaSeconds * 60) : ℝ)

/-- The state `update()` reads and writes, over the reals: the three guard
flags, the damping factor, and the five velocity channels (rotate and pan are
2D).  The camera mutations performed by the `_apply*` calls inside `update`
are modelled by the rational-geometry layer above and do not feed back into
any of these fields. -/
structure VelState where
  enabled : Bool
  enableDamping : Bool
  isDragging : Bool
  dampingFactor : ℝ
  rotateVelX : ℝ
  rotateVelY : ℝ
  panVelX : ℝ
  panVelY : ℝ
  dollyVel : ℝ
  zoomVel : ℝ
  fovVel : ℝ

/-- The rotate branch guard in `update()`:
`|rotateVelocity.x| > STOP_EPSILON || |rotateVelocity.y| > STOP_EPSILON`
(`STOP_EPSILON = 0.01`). -/
def rotActive (s : VelState) : Prop := 0.01 < |s.rotateVelX| ∨ 0.01 < |s.rotateVelY|

/-- The pan branch guard in `update()`. -/
def panActive (s : VelState) : Prop := 0.01 < |s.panVelX| ∨ 0.01 < |s.panVelY|

/-- The dolly branch guard in `update()`. -/
def dollyActive (s : VelState) : Prop := 0.01 < |s.dollyVel|

/-- The orthographic-zoom branch guard in `update()`:
`|zoomVelocity - 1| > ZOOM_STOP_EPSILON` (`ZOOM_STOP_EPSILON = 0.0001`). -/
def zoomActive (s : VelState) : Prop := 0.0001 < |s.zoomVel - 1|

/-- The fov-zoom branch guard in `update()`. -/
def fovActive (s : VelState) : Prop := 0.0001 < |s.fovVel - 1|

/-- `update(deltaSeconds)` restricted to the state it both reads and writes:
each velocity channel whose guard holds is applied (feeding the
rational-geometry layer) and decayed by the damping coefficient; the returned
`Bool` is the `changed` flag.  Guard propositions are decided classically. -/
noncomputable def updateVel (s : VelState) (deltaSeconds : ℝ) : VelState × Bool :=
  if !s.enabled || !s.enableDamping || s.isDragging then (s, false)
  else
    let damping := dampingCoeff s.dampingFactor deltaSeconds
    ({ s with
       rotateVelX := if rotActive s then damping * s.rotateVelX else s.rotateVelX,
       rotateVelY := if rotActive s then damping * s.rotateVelY else s.rotateVelY,
       panVelX := if panActive s then damping * s.panVelX else s.panVelX,
       panVelY := if panActive s then damping * s.panVelY else s.panVelY,
       dollyVel := if dollyActive s then s.dollyVel * damping else s.dollyVel,
       zoomVel := if zoomActive s then 1 + (s.zoomVel - 1) * damping else s.zoomVel,
       fovVel := if fovActive s then 1 + (s.fovVel - 1) * damping else s.fovVel },
     if rotActive s ∨ panActive s ∨ dollyActive s ∨ zoomActive s ∨ fovActive s then true
     else false)

/-- Iterated `update()` calls with a constant frame delta. -/
noncomputable def updateVelIter (s : VelState) (dt : ℝ) : ℕ → VelState
  | 0 => s
  | n + 1 => (updateVel (updateVelIter s dt n) dt).1

/-- Magnitude of the rotate displacement `update()` applies this frame: the
sup-norm of the `(x, y)` delta handed to `_applyRotate`, zero when the guard
fails and the channel is not applied at all. -/
noncomputable def rotMag (s : VelState) : ℝ := max |s.rotateVelX| |s.rotateVelY|

/-- Magnitude of the pan displacement channel. -/
noncomputable def panMag (s : VelState) : ℝ := max |s.panVelX| |s.panVelY|

/-- Magnitude of the dolly displacement channel. -/
noncomputable def dollyMag (s : VelState) : ℝ := |s.dollyVel|

/-- Deviation of the orthographic-zoom factor channel from its rest value 1. -/
noncomputable def zoomMag (s : VelState) : ℝ := |s.zoomVel - 1|

/-- Deviation of the fov-zoom factor channel from its rest value 1. -/
noncomputable def fovMag (s : VelState) : ℝ := |s.fovVel - 1|

/-- The per-frame displacement magnitude of the rotate channel: the applied
delta while the guard holds, exactly zero once it fails. -/
noncomputable def rotDisp (s : VelState) : ℝ := if rotActive s then rotMag s else 0

/-- Per-frame displacement magnitude of the pan channel. -/
noncomputable def panDisp (s : VelState) : ℝ := if panActive s then panMag s else 0

/-- Per-frame displacement magnitude of the dolly channel. -/
noncomputable def dollyDisp (s : VelState) : ℝ := if dollyActive s then dollyMag s else 0

/-- Per-frame applied deviation of the orthographic-zoom channel. -/
noncomputable def zoomDisp (s : VelState) : ℝ := if zoomActive s then zoomMag s else 0

/-- Per-frame applied deviation of the fov-zoom channel. -/
noncomputable def fovDisp (s : VelState) : ℝ := if fovActive s then fovMag s else 0

end DampingLayer

/-- The constructor's default configuration and initial private state
(`new CADCameraControls(camera)` with no DOM element attached). -/
def defaultState (camera : Camera) : CADCameraControls :=
  { camera := camera,
    pivot := ⟨0, 0, 0⟩,
    enabled := true,
    enableDamping := true,
    dampingFactor := 1 / 20,
    inputBindings := { rotate := { button := 0, modifier := none },
                       pan := { button := 2, modifier := none } },
    touchBindings := { one := DragMode.rotate, two := DragMode.pan, pinch := true },
    rotateSpeed := 1 / 200,
    panSpeed := 16 / 10000,
    zoomSpeed := 1,
    minDistance := 50,
    maxDistance := 100000,
    minZoom := 1 / 100,
    maxZoom := 1000,
    zoomMode := ZoomMode.dolly,
    minFov := 1,
    maxFov := 120,
    enableKeyboard := true,
    keyPanSpeed := 7,
    keyRotateSpeed := 1,
    keyZoomSpeed := 1,
    keys := { LEFT := "ArrowLeft", UP := "ArrowUp", RIGHT := "ArrowRight",
              BOTTOM := "ArrowDown" },
    drag := { isDragging := false, mode := none, x := 0, y := 0 },
    rotateVelocity := (0, 0),
    panVelocity := (0, 0),
    dollyVelocity := 0,
    zoomVelocity := 1,
    fovVelocity := 1,
    baseFov := initBaseFov camera,
    pointers := [],
    pinchDistance := 0,
    keyboardBindings := { rotate := KeyboardAction.withModifier ModifierKey.shift,
                          pan := KeyboardAction.bare, zoom := KeyboardAction.disabled } }

@[simp] lemma Vec3.add_x (a b : Vec3) : (a + b).x = a.x + b.x := rfl

@[simp] lemma Vec3.add_y (a b : Vec3) : (a + b).y = a.y + b.y := rfl

@[simp] lemma Vec3.add_z (a b : Vec3) : (a + b).z = a.z + b.z := rfl

@[simp] lemma Vec3.sub_x (a b : Vec3) : (a - b).x = a.x - b.x := rfl

@[simp] lemma Vec3.sub_y (a b : Vec3) : (a - b).y = a.y - b.y := rfl

@[simp] lemma Vec3.sub_z (a b : Vec3) : (a - b).z = a.z - b.z := rfl

@[simp] lemma Vec3.smul_x (t : ℚ) (v : Vec3) : (Vec3.smul t v).x = t * v.x := rfl

@[simp] lemma Vec3.smul_y (t : ℚ) (v : Vec3) : (Vec3.smul t v).y = t * v.y := rfl

@[simp] lemma Vec3.smul_z (t : ℚ) (v : Vec3) : (Vec3.smul t v).z = t * v.z := rfl

@[simp] lemma Vec3.mk_add (a b c d e f : ℚ) :
    (⟨a, b, c⟩ : Vec3) + ⟨d, e, f⟩ = ⟨a + d, b + e, c + f⟩ := rfl

@[simp] lemma Vec3.mk_sub (a b c d e f : ℚ) :
    (⟨a, b, c⟩ : Vec3) - ⟨d, e, f⟩ = ⟨a - d, b - e, c - f⟩ := rfl

@[simp] lemma Vec3.mk_smul (t a b c : ℚ) :
    Vec3.smul t ⟨a, b, c⟩ = ⟨t * a, t * b, t * c⟩ := rfl

lemma Vec3.smul_one (v : Vec3) : Vec3.smul 1 v = v := by
  cases v
  simp [Vec3.smul]

lemma Vec3.add_sub_cancel_left (p w : Vec3) : (p + w) - p = w := by
  cases p
  cases w
  show Vec3.mk _ _ _ = _
  simp

lemma normSq_smul (t : ℚ) (v : Vec3) :
    Vec3.normSq (Vec3.smul t v) = t ^ 2 * Vec3.normSq v := by
  cases v
  simp only [Vec3.smul, Vec3.normSq]
  ring

/-- Applying a unit quaternion with the three.js formula preserves squared
length: the core algebraic fact behind the rotation-distance invariant. -/
lemma normSq_applyQuat (q : Quat) (v : Vec3) (h : qnormSq q = 1) :
    Vec3.normSq (applyQuat q v) = Vec3.normSq v := by
  obtain ⟨qx, qy, qz, qw⟩ := q
  obtain ⟨vx, vy, vz⟩ := v
  simp only [applyQuat, Vec3.normSq, qnormSq] at h ⊢
  linear_combination
    (4 * ((qx ^ 2 + qy ^ 2 + qz ^ 2) * (vx ^ 2 + vy ^ 2 + vz ^ 2)
      - (qx * vx + qy * vy + qz * vz) ^ 2)) * h

/-- The quaternion norm is multiplicative for the three.js Hamilton product. -/
lemma qnormSq_qmul (a b : Quat) : qnormSq (qmul a b) = qnormSq a * qnormSq b := by
  obtain ⟨ax, ay, az, aw⟩ := a
  obtain ⟨bx, by', bz, bw⟩ := b
  simp only [qmul, qnormSq]
  ring

lemma normalizeWith_one (v : Vec3) : normalizeWith v 1 = v := by
  simp [normalizeWith, Vec3.smul_one]

lemma qnormSq_setFromAxisAngle (axis : Vec3) (c s : ℚ) :
    qnormSq (setFromAxisAngle axis c s) = s ^ 2 * Vec3.normSq axis + c ^ 2 := by
  cases axis
  simp only [setFromAxisAngle, qnormSq, Vec3.normSq]
  ring

/-- C2: `_applyRotate` leaves the squared distance from the camera position to
the pivot exactly unchanged (exact arithmetic), and leaves the pivot itself
unchanged, for every camera state with a unit orientation quaternion and every
rotate delta (the half-angle cosine/sine pairs of the yaw and pitch
quaternions, which satisfy `c² + s² = 1` for every delta, and the length
consumed by the right-axis normalisation). -/
theorem rotate_preserves_pivot_distance (s : CADCameraControls) (a : RotAux)
    (hq : qnormSq s.camera.quaternion = 1)
    (hy : a.yc ^ 2 + a.ys ^ 2 = 1)
    (hp : a.pc ^ 2 + a.ps ^ 2 = 1)
    (hr0 : 0 ≤ a.rightLen)
    (hr : a.rightLen ^ 2 = Vec3.normSq (rotRightRaw s a)) :
    distSq (applyRotate s a).1.camera.position (applyRotate s a).1.pivot
        = distSq s.camera.position s.pivot
      ∧ (applyRotate s a).1.pivot = s.pivot := by
  have hyaw : qnormSq (setFromAxisAngle WORLD_UP a.yc a.ys) = 1 := by
    rw [qnormSq_setFromAxisAngle]
    have : Vec3.normSq WORLD_UP = 1 := by norm_num [WORLD_UP, Vec3.normSq]
    rw [this]
    linear_combination hy
  have hruN : Vec3.normSq (rotRightRaw s a) = 1 := by
    unfold rotRightRaw
    rw [normSq_applyQuat _ _ (by rw [qnormSq_qmul, hyaw, hq]; ring)]
    norm_num [CAMERA_RIGHT, Vec3.normSq]
  have hlen : a.rightLen = 1 := by
    have h2 : a.rightLen * a.rightLen = 1 := by
      have h3 := hr
      rw [hruN] at h3
      nlinarith [h3]
    rcases mul_self_eq_one_iff.mp h2 with h | h
    · exact h
    · linarith
  have hpitch :
      qnormSq (setFromAxisAngle (normalizeWith (rotRightRaw s a) a.rightLen) a.pc a.ps) = 1 := by
    rw [hlen, normalizeWith_one, qnormSq_setFromAxisAngle, hruN]
    linear_combination hp
  refine ⟨?_, rfl⟩
  show distSq (s.pivot + applyQuat _ (applyQuat _ (s.camera.position - s.pivot))) s.pivot = _
  rw [distSq, Vec3.add_sub_cancel_left, normSq_applyQuat _ _ hpitch, normSq_applyQuat _ _ hyaw]
  rfl

/-- A perspective camera at `(3, 4, 12)` with the identity orientation. -/
def exPerspCam : Camera :=
  { kind := CameraKind.perspective, position := ⟨3, 4, 12⟩,
    quaternion := ⟨0, 0, 0, 1⟩, fov := 50, zoom := 1 }

/-- Concrete rotate side-values: yaw half-angle with cosine 3/5 and sine 4/5,
pitch half-angle with cosine 5/13 and sine 12/13. -/
def exRotAux : RotAux := { yc := 3/5, ys := 4/5, pc := 5/13, ps := 12/13, rightLen := 1 }

theorem rotate_preserves_pivot_distance_witness :
    distSq (applyRotate (defaultState exPerspCam) exRotAux).1.camera.position
        (applyRotate (defaultState exPerspCam) exRotAux).1.pivot
      = distSq (defaultState exPerspCam).camera.position (defaultState exPerspCam).pivot
    ∧ (applyRotate (defaultState exPerspCam) exRotAux).1.pivot = (defaultState exPerspCam).pivot :=
  rotate_preserves_pivot_distance (defaultState exPerspCam) exRotAux
    (by norm_num [defaultState, exPerspCam, qnormSq])
    (by norm_num [exRotAux])
    (by norm_num [exRotAux])
    (by norm_num [exRotAux])
    (by norm_num [exRotAux, rotRightRaw, defaultState, exPerspCam, applyQuat, qmul,
      setFromAxisAngle, WORLD_UP, CAMERA_RIGHT, Vec3.normSq])

/-- C8: `_applyPan` changes only the camera position — the orientation
quaternion, the pivot, the fov and the zoom scalar are all exactly unchanged,
for every camera state, pan delta and side-value. -/
theorem pan_changes_only_position (s : CADCameraControls) (dx dy : ℚ) (a : PanAux) :
    (applyPan s dx dy a).1.camera.quaternion = s.camera.quaternion
    ∧ (applyPan s dx dy a).1.pivot = s.pivot
    ∧ (applyPan s dx dy a).1.camera.fov = s.camera.fov
    ∧ (applyPan s dx dy a).1.camera.zoom = s.camera.zoom
    ∧ (applyPan s dx dy a).1.camera.kind = s.camera.kind :=
  ⟨rfl, rfl, rfl, rfl, rfl⟩

lemma clampQ_mem (x lo hi : ℚ) (h : lo ≤ hi) :
    lo ≤ clampQ x lo hi ∧ clampQ x lo hi ≤ hi :=
  ⟨le_max_left _ _, max_le h (min_le_left _ _)⟩

/-- C9: for an orthographic camera every scroll/pinch tick and every key-zoom
tick routes to `_applyZoom` regardless of `zoomMode`, with `camera.zoom`
clamped into `[minZoom, maxZoom]`; and `_applyDolly` is a complete no-op that
dispatches nothing. -/
theorem orthographic_zoom_behavior (s : CADCameraControls)
    (hk : s.camera.kind = CameraKind.orthographic)
    (hz : s.minZoom ≤ s.maxZoom) :
    (∀ rawDelta : ℚ, ∀ a : ScrollAux,
      applyScrollZoom s rawDelta a
        = ({ (applyZoom s (1 / a.scale) a.zoomA).1 with zoomVelocity := 1 / a.scale },
           (applyZoom s (1 / a.scale) a.zoomA).2))
    ∧ (∀ direction : ℚ, ∀ a : ScrollAux,
      applyKeyZoom s direction a
        = ({ (applyZoom s (1 / a.scale) a.zoomA).1 with zoomVelocity := 1 / a.scale },
           (applyZoom s (1 / a.scale) a.zoomA).2))
    ∧ (∀ factor : ℚ, ∀ a : ZoomAux,
      (applyZoom s factor a).1.camera.zoom
          = clampQ (s.camera.zoom * factor) s.minZoom s.maxZoom
        ∧ s.minZoom ≤ (applyZoom s factor a).1.camera.zoom
        ∧ (applyZoom s factor a).1.camera.zoom ≤ s.maxZoom)
    ∧ (∀ step : ℚ, ∀ a : DollyAux, applyDolly s step a = (s, [])) := by
  refine ⟨?_, ?_, ?_, ?_⟩
  · intro rawDelta a
    simp [applyScrollZoom, zoomDispatch, hk]
  · intro direction a
    simp [applyKeyZoom, zoomDispatch, hk]
  · intro factor a
    exact ⟨rfl, (clampQ_mem _ _ _ hz).1, (clampQ_mem _ _ _ hz).2⟩
  · intro step a
    simp [applyDolly, hk]

/-- An orthographic camera at `(0, 0, 10)` with the identity orientation. -/
def exOrthoCam : Camera :=
  { kind := CameraKind.orthographic, position := ⟨0, 0, 10⟩,
    quaternion := ⟨0, 0, 0, 1⟩, fov := 50, zoom := 1 }

/-- A perspective camera at `(0, 0, 10)` looking along `-z` at the pivot. -/
def exDollyCam : Camera :=
  { kind := CameraKind.perspective, position := ⟨0, 0, 10⟩,
    quaternion := ⟨0, 0, 0, 1⟩, fov := 50, zoom := 1 }

/-- Dolly side-values for the centred pointer on `exDollyCam` with step 2:
the corrected pre-clamp position is `(0, 0, 8)`, at distance 8. -/
def exDollyAux : DollyAux := { rayDir := ⟨0, 0, -1⟩, fwdLen := 1, nextDist := 8 }

theorem orthographic_zoom_behavior_witness :
    applyDolly (defaultState exOrthoCam) 2 exDollyAux = (defaultState exOrthoCam, []) :=
  (orthographic_zoom_behavior (defaultState exOrthoCam) rfl (by norm_num [defaultState])).2.2.2
    2 exDollyAux

/-- C1: the `'auto'` zoom-mode policy of `_applyScrollZoom` and
`_applyKeyZoom` for a perspective camera: a zoom-in tick performs FovZoom when
the current pivot distance is within the `MIN_DISTANCE_BUFFER = 1` of
`minDistance` and otherwise a Dolly step of `distance * (1 - scale)`; a
zoom-out tick performs FovZoom bounded above by the captured base fov exactly
when the current fov is below the base fov minus `FOV_EPSILON`, and otherwise
a Dolly step.  Each equality shows the dispatch is a function of the current
camera state only — no stored mode flag exists. -/
theorem auto_zoom_policy (s : CADCameraControls) (a : ScrollAux) (rawDelta direction : ℚ)
    (hk : s.camera.kind = CameraKind.perspective)
    (hm : s.zoomMode = ZoomMode.auto)
    (hd0 : 0 ≤ a.dist)
    (hd : a.dist ^ 2 = distSq s.camera.position s.pivot) :
    (0 < rawDelta → a.dist ≤ s.minDistance + 1 →
      applyScrollZoom s rawDelta a
        = ({ (applyFovZoom s (1 / a.scale) none a.fovA).1 with fovVelocity := 1 / a.scale },
           (applyFovZoom s (1 / a.scale) none a.fovA).2))
    ∧ (0 < rawDelta → ¬a.dist ≤ s.minDistance + 1 →
      applyScrollZoom s rawDelta a
        = ({ (applyDolly s (a.dist * (1 - a.scale)) a.dollyA).1 with
             dollyVelocity := a.dist * (1 - a.scale) },
           (applyDolly s (a.dist * (1 - a.scale)) a.dollyA).2))
    ∧ (rawDelta < 0 → fovBelowBase s.camera.fov s.baseFov = true →
      applyScrollZoom s rawDelta a
        = ({ (applyFovZoom s (1 / a.scale) s.baseFov a.fovA).1 with
             fovVelocity := 1 / a.scale },
           (applyFovZoom s (1 / a.scale) s.baseFov a.fovA).2))
    ∧ (rawDelta < 0 → fovBelowBase s.camera.fov s.baseFov = false →
      applyScrollZoom s rawDelta a
        = ({ (applyDolly s (a.dist * (1 - a.scale)) a.dollyA).1 with
             dollyVelocity := a.dist * (1 - a.scale) },
           (applyDolly s (a.dist * (1 - a.scale)) a.dollyA).2))
    ∧ (0 < direction → a.dist ≤ s.minDistance + 1 →
      applyKeyZoom s direction a
        = ({ (applyFovZoom s (1 / a.scale) none a.fovA).1 with fovVelocity := 1 / a.scale },
           (applyFovZoom s (1 / a.scale) none a.fovA).2))
    ∧ (0 < direction → ¬a.dist ≤ s.minDistance + 1 →
      applyKeyZoom s direction a
        = ({ (applyDolly s (a.dist * (1 - a.scale)) a.dollyA).1 with
             dollyVelocity := a.dist * (1 - a.scale) },
           (applyDolly s (a.dist * (1 - a.scale)) a.dollyA).2))
    ∧ (direction < 0 → fovBelowBase s.camera.fov s.baseFov = true →
      applyKeyZoom s direction a
        = ({ (applyFovZoom s (1 / a.scale) s.baseFov a.fovA).1 with
             fovVelocity := 1 / a.scale },
           (applyFovZoom s (1 / a.scale) s.baseFov a.fovA).2))
    ∧ (direction < 0 → fovBelowBase s.camera.fov s.baseFov = false →
      applyKeyZoom s direction a
        = ({ (applyDolly s (a.dist * (1 - a.scale)) a.dollyA).1 with
             dollyVelocity := a.dist * (1 - a.scale) },
           (applyDolly s (a.dist * (1 - a.scale)) a.dollyA).2)) := by
  refine ⟨?_, ?_, ?_, ?_, ?_, ?_, ?_, ?_⟩
  all_goals intro h1 h2
  · simp [applyScrollZoom, zoomDispatch, hk, hm, h1, h2]
  · simp [applyScrollZoom, zoomDispatch, hk, hm, h1, h2]
  · simp [applyScrollZoom, zoomDispatch, hk, hm, not_lt_of_lt h1, h2]
  · simp [applyScrollZoom, zoomDispatch, hk, hm, not_lt_of_lt h1, h2]
  · simp [applyKeyZoom, zoomDispatch, hk, hm, h1, h2]
  · simp [applyKeyZoom, zoomDispatch, hk, hm, h1, h2]
  · simp [applyKeyZoom, zoomDispatch, hk, hm, not_lt_of_lt h1, h2]
  · simp [applyKeyZoom, zoomDispatch, hk, hm, not_lt_of_lt h1, h2]

/-- Scroll-tick side-values for the example perspective camera: one wheel
notch scale `0.95`, pivot distance `13 = |(3,4,12)|`. -/
def exScrollAux : ScrollAux :=
  { scale := 19/20, dist := 13,
    dollyA := { rayDir := ⟨0, 0, -1⟩, fwdLen := 1, nextDist := 8 },
    zoomA := { before := ⟨0, 0, 0⟩, after := ⟨0, 0, 0⟩ },
    fovA := { fwdLen := 1, rayBefore := ⟨0, 0, -1⟩, rayAfter := ⟨0, 0, -1⟩ } }

theorem auto_zoom_policy_witness :
    applyScrollZoom { defaultState exPerspCam with zoomMode := ZoomMode.auto } 100 exScrollAux
      = ({ (applyFovZoom { defaultState exPerspCam with zoomMode := ZoomMode.auto }
              (1 / exScrollAux.scale) none exScrollAux.fovA).1 with
           fovVelocity := 1 / exScrollAux.scale },
         (applyFovZoom { defaultState exPerspCam with zoomMode := ZoomMode.auto }
            (1 / exScrollAux.scale) none exScrollAux.fovA).2) :=
  (auto_zoom_policy { defaultState exPerspCam with zoomMode := ZoomMode.auto }
      exScrollAux 100 0 rfl rfl (by norm_num [exScrollAux])
      (by norm_num [exScrollAux, defaultState, exPerspCam, distSq, Vec3.normSq])).1
    (by norm_num) (by norm_num [exScrollAux, defaultState])

lemma applyDolly_position (s : CADCameraControls) (step : ℚ) (a : DollyAux)
    (hk : ¬s.camera.kind = CameraKind.orthographic) :
    (applyDolly s step a).1.camera.position =
      (if a.nextDist > 0 ∧ clampQ a.nextDist s.minDistance s.maxDistance ≠ a.nextDist then
        s.pivot + Vec3.smul (clampQ a.nextDist s.minDistance s.maxDistance / a.nextDist)
          (dollyNextPos s step a - s.pivot)
      else dollyNextPos s step a)
    ∧ (applyDolly s step a).1.pivot = s.pivot := by
  unfold applyDolly
  rw [if_neg hk]
  exact ⟨rfl, rfl⟩

/-- C3 (amended): whenever the pre-clamp corrected position of a Dolly step
does not coincide exactly with the pivot (`nextFromPivot.length() ≠ 0`), the
post-step pivot distance equals the clamp of the pre-clamp distance into
`[minDistance, maxDistance]`, hence stays within those bounds; and the clamp
is realised purely by rescaling the pivot-relative offset vector. -/
theorem dolly_clamp_within_bounds (s : CADCameraControls) (step : ℚ) (a : DollyAux)
    (hk : s.camera.kind = CameraKind.perspective)
    (hmM : s.minDistance ≤ s.maxDistance)
    (hd0 : 0 ≤ a.nextDist)
    (hd : a.nextDist ^ 2 = distSq (dollyNextPos s step a) s.pivot)
    (hnz : a.nextDist ≠ 0) :
    distSq (applyDolly s step a).1.camera.position s.pivot
        = clampQ a.nextDist s.minDistance s.maxDistance ^ 2
    ∧ s.minDistance ≤ clampQ a.nextDist s.minDistance s.maxDistance
    ∧ clampQ a.nextDist s.minDistance s.maxDistance ≤ s.maxDistance
    ∧ (applyDolly s step a).1.camera.position - s.pivot
        = Vec3.smul (clampQ a.nextDist s.minDistance s.maxDistance / a.nextDist)
            (dollyNextPos s step a - s.pivot) := by
  have hkO : ¬s.camera.kind = CameraKind.orthographic := by
    rw [hk]
    simp
  have hpos := (applyDolly_position s step a hkO).1
  have hnormv : Vec3.normSq (dollyNextPos s step a - s.pivot) = a.nextDist ^ 2 := by
    rw [hd]
    rfl
  rcases lt_or_eq_of_le hd0 with hlt | heq
  swap
  · exact absurd heq.symm hnz
  by_cases hc : a.nextDist > 0 ∧ clampQ a.nextDist s.minDistance s.maxDistance ≠ a.nextDist
  · rw [if_pos hc] at hpos
    refine ⟨?_, (clampQ_mem _ _ _ hmM).1, (clampQ_mem _ _ _ hmM).2, ?_⟩
    · rw [hpos, distSq, Vec3.add_sub_cancel_left, normSq_smul, hnormv]
      field_simp
    · rw [hpos, Vec3.add_sub_cancel_left]
  · rw [if_neg hc] at hpos
    push_neg at hc
    have hceq : clampQ a.nextDist s.minDistance s.maxDistance = a.nextDist := hc hlt
    refine ⟨?_, (clampQ_mem _ _ _ hmM).1, (clampQ_mem _ _ _ hmM).2, ?_⟩
    · rw [hpos, distSq, hnormv, hceq]
    · rw [hpos, hceq, div_self hnz, Vec3.smul_one]

lemma dollyNextPos_corrected (s : CADCameraControls) (step : ℚ) (a : DollyAux)
    (f n b aft : Vec3)
    (hf : worldDirection s.camera.quaternion a.fwdLen = f)
    (hn : s.camera.position + Vec3.smul step f = n)
    (hb : intersectRayWithPlane s.camera.position a.rayDir s.pivot f = some b)
    (ha : intersectRayWithPlane n a.rayDir s.pivot f = some aft) :
    dollyNextPos s step a = n + (b - aft) := by
  unfold dollyNextPos
  simp only [hf, hn, hb, ha]

theorem dolly_clamp_within_bounds_witness :
    distSq (applyDolly (defaultState exDollyCam) 2 exDollyAux).1.camera.position
        (defaultState exDollyCam).pivot
      = clampQ exDollyAux.nextDist (defaultState exDollyCam).minDistance
          (defaultState exDollyCam).maxDistance ^ 2
    ∧ (defaultState exDollyCam).minDistance
        ≤ clampQ exDollyAux.nextDist (defaultState exDollyCam).minDistance
            (defaultState exDollyCam).maxDistance
    ∧ clampQ exDollyAux.nextDist (defaultState exDollyCam).minDistance
          (defaultState exDollyCam).maxDistance ≤ (defaultState exDollyCam).maxDistance
    ∧ (applyDolly (defaultState exDollyCam) 2 exDollyAux).1.camera.position
          - (defaultState exDollyCam).pivot
        = Vec3.smul (clampQ exDollyAux.nextDist (defaultState exDollyCam).minDistance
              (defaultState exDollyCam).maxDistance / exDollyAux.nextDist)
            (dollyNextPos (defaultState exDollyCam) 2 exDollyAux
              - (defaultState exDollyCam).pivot) :=
  dolly_clamp_within_bounds (defaultState exDollyCam) 2 exDollyAux rfl
    (by norm_num [defaultState])
    (by norm_num [exDollyAux])
    (by
      have hnext : dollyNextPos (defaultState exDollyCam) 2 exDollyAux = ⟨0, 0, 8⟩ := by
        rw [dollyNextPos_corrected (defaultState exDollyCam) 2 exDollyAux
          ⟨0, 0, -1⟩ ⟨0, 0, 8⟩ ⟨0, 0, 0⟩ ⟨0, 0, 0⟩
          (by norm_num [worldDirection, defaultState, exDollyCam, exDollyAux,
            normalizeWith, applyQuat])
          (by norm_num [defaultState, exDollyCam])
          (by norm_num [intersectRayWithPlane, defaultState, exDollyCam, exDollyAux,
            Vec3.dot])
          (by norm_num [intersectRayWithPlane, defaultState, exDollyCam, exDollyAux,
            Vec3.dot])]
        norm_num
      rw [hnext]
      norm_num [exDollyAux, defaultState, distSq, Vec3.normSq])
    (by norm_num [exDollyAux])

/-- A perspective camera at `(0, 3, 4)` (distance 5 from the origin pivot)
facing along `-z`. -/
def cexDollyCam : Camera :=
  { kind := CameraKind.perspective, position := ⟨0, 3, 4⟩,
    quaternion := ⟨0, 0, 0, 1⟩, fov := 50, zoom := 1 }

/-- Controller on `cexDollyCam` with `minDistance = 1`, `maxDistance = 10`
(so the starting pivot distance 5 lies inside `[m, M]`). -/
def cexDollyState : CADCameraControls :=
  { defaultState cexDollyCam with minDistance := 1, maxDistance := 10 }

/-- A zoom-in wheel tick whose pointer ray `(0, -3/5, -4/5)` passes exactly
through the pivot, with tick scale `1/5`: the anchored correction moves the
camera along the pointer ray by `step / (forward ⬝ ray) = 4 / (4/5) = 5`,
landing exactly on the pivot. -/
def cexScrollAux : ScrollAux :=
  { scale := 1/5, dist := 5,
    dollyA := { rayDir := ⟨0, -3/5, -4/5⟩, fwdLen := 1, nextDist := 0 },
    zoomA := { before := ⟨0, 0, 0⟩, after := ⟨0, 0, 0⟩ },
    fovA := { fwdLen := 1, rayBefore := ⟨0, 0, -1⟩, rayAfter := ⟨0, 0, -1⟩ } }

/-- C3 counterexample: a single zoom-in wheel tick from pivot distance
5 ∈ [1, 10] produces pivot distance exactly 0 < minDistance — the clamp is
skipped because the pre-clamp corrected position coincides with the pivot
(`nextDistance > 0` fails).  The last conjuncts certify that the auxiliary
inputs are consistent: the pre-tick distance is 5, the pre-clamp distance is
0, and the tick scale lies in (0, 1) as for every zoom-in tick. -/
theorem dolly_clamp_cex :
    distSq (applyScrollZoom cexDollyState 100 cexScrollAux).1.camera.position
        cexDollyState.pivot = 0
    ∧ (0 : ℚ) < cexDollyState.minDistance
    ∧ cexDollyState.minDistance ≤ cexScrollAux.dist
    ∧ cexScrollAux.dist ≤ cexDollyState.maxDistance
    ∧ cexScrollAux.dist ^ 2 = distSq cexDollyState.camera.position cexDollyState.pivot
    ∧ cexScrollAux.dollyA.nextDist ^ 2
        = distSq (dollyNextPos cexDollyState (cexScrollAux.dist * (1 - cexScrollAux.scale))
            cexScrollAux.dollyA) cexDollyState.pivot
    ∧ 0 < cexScrollAux.scale ∧ cexScrollAux.scale < 1 := by
  have hstep : cexScrollAux.dist * (1 - cexScrollAux.scale) = 4 := by
    norm_num [cexScrollAux]
  have hnd : dollyNextPos cexDollyState 4 cexScrollAux.dollyA = ⟨0, 0, 0⟩ := by
    rw [dollyNextPos_corrected cexDollyState 4 cexScrollAux.dollyA
      ⟨0, 0, -1⟩ ⟨0, 3, 0⟩ ⟨0, 0, 0⟩ ⟨0, 3, 0⟩
      (by norm_num [worldDirection, cexDollyState, defaultState, cexDollyCam, cexScrollAux,
        normalizeWith, applyQuat])
      (by norm_num [cexDollyState, defaultState, cexDollyCam])
      (by norm_num [intersectRayWithPlane, cexDollyState, defaultState, cexDollyCam,
        cexScrollAux, Vec3.dot, abs_of_nonneg])
      (by norm_num [intersectRayWithPlane, cexDollyState, defaultState, cexDollyCam,
        cexScrollAux, Vec3.dot, abs_of_nonneg])]
    norm_num
  have hdolly : (applyDolly cexDollyState 4 cexScrollAux.dollyA).1.camera.position
      = ⟨0, 0, 0⟩ := by
    have h := (applyDolly_position cexDollyState 4 cexScrollAux.dollyA
      (by simp [cexDollyState, defaultState, cexDollyCam])).1
    rw [if_neg (by norm_num [cexScrollAux])] at h
    rw [h, hnd]
  have hroute : (applyScrollZoom cexDollyState 100 cexScrollAux).1.camera.position
      = (applyDolly cexDollyState (cexScrollAux.dist * (1 - cexScrollAux.scale))
          cexScrollAux.dollyA).1.camera.position := by
    simp [applyScrollZoom, zoomDispatch, cexDollyState, defaultState, cexDollyCam]
  refine ⟨?_, ?_, ?_, ?_, ?_, ?_, ?_, ?_⟩
  · rw [hroute, hstep, hdolly]
    norm_num [cexDollyState, defaultState, distSq, Vec3.normSq]
  · norm_num [cexDollyState, defaultState]
  · norm_num [cexDollyState, defaultState, cexScrollAux]
  · norm_num [cexDollyState, defaultState, cexScrollAux]
  · norm_num [cexDollyState, defaultState, cexDollyCam, cexScrollAux, distSq, Vec3.normSq]
  · rw [hstep, hnd]
    norm_num [cexScrollAux, cexDollyState, defaultState, distSq, Vec3.normSq]
  · norm_num [cexScrollAux]
  · norm_num [cexScrollAux]

/-- C10: `resetBaseFov` reads `camera.fov` unconditionally through the
perspective cast, so on an orthographic controller it stores `undefined`
(`none`); the constructor instead guards the cast and falls back to the
default max fov 120; and after `resetBaseFov` on an orthographic controller
the auto-mode reversal comparison `fov < baseFov - FOV_EPSILON` is never
satisfiable (the JS comparison against `undefined` is false). -/
theorem resetBaseFov_orthographic (s : CADCameraControls) (camera : Camera)
    (hs : s.camera.kind = CameraKind.orthographic)
    (hc : camera.kind = CameraKind.orthographic) :
    (resetBaseFov s).baseFov = none
    ∧ initBaseFov camera = some 120
    ∧ (defaultState camera).baseFov = some 120
    ∧ ∀ fov : ℚ, fovBelowBase fov (resetBaseFov s).baseFov = false := by
  have h1 : (resetBaseFov s).baseFov = none := by
    simp [resetBaseFov, Camera.fovProp, hs]
  refine ⟨h1, ?_, ?_, ?_⟩
  · simp [initBaseFov, hc]
  · simp [defaultState, initBaseFov, hc]
  · intro fov
    rw [h1]
    rfl

theorem resetBaseFov_orthographic_witness :
    (resetBaseFov (defaultState exOrthoCam)).baseFov = none
    ∧ initBaseFov exOrthoCam = some 120
    ∧ (defaultState exOrthoCam).baseFov = some 120
    ∧ ∀ fov : ℚ, fovBelowBase fov (resetBaseFov (defaultState exOrthoCam)).baseFov = false :=
  resetBaseFov_orthographic (defaultState exOrthoCam) exOrthoCam rfl rfl

/-- The number of active (non-disabled) actions in a keyboard binding. -/
def activeCount (b : KeyboardBindings) : Nat :=
  ([b.rotate, b.pan, b.zoom].filter (fun a => a ≠ KeyboardAction.disabled)).length

/-- The number of bare actions in a keyboard binding. -/
def bareCount (b : KeyboardBindings) : Nat :=
  ([b.rotate, b.pan, b.zoom].filter (fun a => a = KeyboardAction.bare)).length

/-- Two distinct action slots both carry the modifier `m`. -/
def sharesModifier (b : KeyboardBindings) (m : ModifierKey) : Prop :=
  (b.rotate = KeyboardAction.withModifier m ∧ b.pan = KeyboardAction.withModifier m)
  ∨ (b.rotate = KeyboardAction.withModifier m ∧ b.zoom = KeyboardAction.withModifier m)
  ∨ (b.pan = KeyboardAction.withModifier m ∧ b.zoom = KeyboardAction.withModifier m)

instance (b : KeyboardBindings) (m : ModifierKey) : Decidable (sharesModifier b m) := by
  unfold sharesModifier; infer_instance

deriving instance Fintype for ModifierKey

deriving instance Fintype for KeyboardAction

deriving instance Fintype for KeyboardBindings

deriving instance DecidableEq for Except

set_option maxRecDepth 8000 in
/-- C7: keyboard-binding validation.  An assignment with zero active actions,
with two or more bare actions, or with two active actions sharing a modifier
raises the fault identifying the violated invariant; an assignment satisfying
all three invariants validates cleanly; and the setter leaves the stored
bindings unchanged whenever validation throws. -/
theorem keyboardBindings_validation :
    (∀ b : KeyboardBindings, activeCount b = 0 →
      validateKeyboardBindings b = Except.error BindingError.noActiveAction)
    ∧ (∀ b : KeyboardBindings, 2 ≤ bareCount b →
      validateKeyboardBindings b = Except.error BindingError.multipleBareActions)
    ∧ (∀ b : KeyboardBindings, (∃ m, sharesModifier b m) →
      ∃ m2, validateKeyboardBindings b = Except.error (BindingError.duplicateModifier m2))
    ∧ (∀ b : KeyboardBindings, 1 ≤ activeCount b → bareCount b ≤ 1 →
      (∀ m, ¬sharesModifier b m) → validateKeyboardBindings b = Except.ok ())
    ∧ (∀ s : CADCameraControls, ∀ v : KeyboardBindings, ∀ e : BindingError,
      validateKeyboardBindings v = Except.error e →
        setKeyboardBindings s v = (s, some e)) := by
  refine ⟨?_, ?_, ?_, ?_, ?_⟩
  · decide
  · decide
  · decide
  · decide
  · intro s v e h
    simp [setKeyboardBindings, h]

theorem keyboardBindings_validation_witness :
    validateKeyboardBindings
        { rotate := KeyboardAction.withModifier ModifierKey.shift,
          pan := KeyboardAction.bare,
          zoom := KeyboardAction.withModifier ModifierKey.ctrl }
      = Except.ok () :=
  keyboardBindings_validation.2.2.2.1
    { rotate := KeyboardAction.withModifier ModifierKey.shift,
      pan := KeyboardAction.bare,
      zoom := KeyboardAction.withModifier ModifierKey.ctrl }
    (by decide) (by decide) (by decide)

lemma applyDolly_preserves_velocities (s : CADCameraControls) (step : ℚ) (a : DollyAux) :
    (applyDolly s step a).1.rotateVelocity = s.rotateVelocity
    ∧ (applyDolly s step a).1.panVelocity = s.panVelocity := by
  unfold applyDolly
  split
  · exact ⟨rfl, rfl⟩
  · exact ⟨rfl, rfl⟩

lemma zoomDispatch_preserves_drag_velocities (s : CADCameraControls) (iz : Bool)
    (a : ScrollAux) :
    (zoomDispatch s iz a).1.rotateVelocity = s.rotateVelocity
    ∧ (zoomDispatch s iz a).1.panVelocity = s.panVelocity := by
  unfold zoomDispatch
  dsimp only
  split
  · exact ⟨rfl, rfl⟩
  split
  · exact ⟨rfl, rfl⟩
  split
  · split
    · split
      · exact ⟨rfl, rfl⟩
      · exact ⟨(applyDolly_preserves_velocities s _ a.dollyA).1,
          (applyDolly_preserves_velocities s _ a.dollyA).2⟩
    · split
      · exact ⟨rfl, rfl⟩
      · exact ⟨(applyDolly_preserves_velocities s _ a.dollyA).1,
          (applyDolly_preserves_velocities s _ a.dollyA).2⟩
  · exact ⟨(applyDolly_preserves_velocities s _ a.dollyA).1,
      (applyDolly_preserves_velocities s _ a.dollyA).2⟩

lemma zoomDispatch_rotateVelocity (s : CADCameraControls) (iz : Bool) (a : ScrollAux) :
    (zoomDispatch s iz a).1.rotateVelocity = s.rotateVelocity :=
  (zoomDispatch_preserves_drag_velocities s iz a).1

lemma zoomDispatch_panVelocity (s : CADCameraControls) (iz : Bool) (a : ScrollAux) :
    (zoomDispatch s iz a).1.panVelocity = s.panVelocity :=
  (zoomDispatch_preserves_drag_velocities s iz a).2

/-- C6 (amended): starting a new drag — a mouse pointer-down matching a
binding, or a first touch — resets all five velocity channels to their rest
values (0, 0, 0, 1, 1).  A keyboard action does NOT reset the other channels:
it only overwrites the velocity channel of the action it performs, leaving
every other channel (and any in-flight inertial tail on it) untouched. -/
theorem new_interaction_velocity_policy :
    (∀ s : CADCameraControls, ∀ e : PointerEvt, ∀ p : ℚ,
      s.enabled = true → ¬e.pointerType = "touch" →
      ((pointerDownMatch s e).1 = true ∨ (pointerDownMatch s e).2 = true) →
      (onPointerDown s e p).1.rotateVelocity = (0, 0)
      ∧ (onPointerDown s e p).1.panVelocity = (0, 0)
      ∧ (onPointerDown s e p).1.dollyVelocity = 0
      ∧ (onPointerDown s e p).1.zoomVelocity = 1
      ∧ (onPointerDown s e p).1.fovVelocity = 1)
    ∧ (∀ s : CADCameraControls, ∀ e : PointerEvt, ∀ p : ℚ,
      s.enabled = true → e.pointerType = "touch" → s.pointers = [] →
      (onPointerDown s e p).1.rotateVelocity = (0, 0)
      ∧ (onPointerDown s e p).1.panVelocity = (0, 0)
      ∧ (onPointerDown s e p).1.dollyVelocity = 0
      ∧ (onPointerDown s e p).1.zoomVelocity = 1
      ∧ (onPointerDown s e p).1.fovVelocity = 1)
    ∧ (∀ s : CADCameraControls, ∀ e : KeyEvt, ∀ a : KeyAux,
      s.enabled = true → s.enableKeyboard = true → e.code = s.keys.LEFT →
      matchAction s.keyboardBindings.zoom e.mods = false →
      matchAction s.keyboardBindings.rotate e.mods = true →
      matchAction s.keyboardBindings.pan e.mods = false →
      (onKeyDown s e a).1.panVelocity = s.panVelocity
      ∧ (onKeyDown s e a).1.dollyVelocity = s.dollyVelocity
      ∧ (onKeyDown s e a).1.zoomVelocity = s.zoomVelocity
      ∧ (onKeyDown s e a).1.fovVelocity = s.fovVelocity)
    ∧ (∀ s : CADCameraControls, ∀ e : KeyEvt, ∀ a : KeyAux,
      s.enabled = true → s.enableKeyboard = true → e.code = s.keys.LEFT →
      matchAction s.keyboardBindings.zoom e.mods = false →
      matchAction s.keyboardBindings.pan e.mods = true →
      (onKeyDown s e a).1.rotateVelocity = s.rotateVelocity
      ∧ (onKeyDown s e a).1.dollyVelocity = s.dollyVelocity
      ∧ (onKeyDown s e a).1.zoomVelocity = s.zoomVelocity
      ∧ (onKeyDown s e a).1.fovVelocity = s.fovVelocity)
    ∧ (∀ s : CADCameraControls, ∀ e : KeyEvt, ∀ a : KeyAux,
      s.enabled = true → s.enableKeyboard = true → e.code = s.keys.UP →
      ¬s.keys.UP = s.keys.LEFT → ¬s.keys.UP = s.keys.RIGHT → ¬s.keys.UP = s.keys.BOTTOM →
      matchAction s.keyboardBindings.zoom e.mods = true →
      (onKeyDown s e a).1.rotateVelocity = s.rotateVelocity
      ∧ (onKeyDown s e a).1.panVelocity = s.panVelocity) := by
  refine ⟨?_, ?_, ?_, ?_, ?_⟩
  · intro s e p hs hne hmatch
    have hcond : (!(pointerDownMatch s e).1 && !(pointerDownMatch s e).2) = false := by
      rcases hmatch with h | h <;> simp [h]
    simp [onPointerDown, hs, hne, hcond]
  · intro s e p hs htouch hpt
    simp [onPointerDown, onTouchStart, hs, htouch, hpt]
  · intro s e a hs hk hcode hz hrot hpan
    simp [onKeyDown, hs, hk, hcode, hz, hrot, hpan, applyRotate]
  · intro s e a hs hk hcode hz hpan
    simp [onKeyDown, hs, hk, hcode, hz, hpan, applyPan]
  · intro s e a hs hk hcode hl hr hb hz
    simp [onKeyDown, applyKeyZoom, hs, hk, hcode, hz, hl, hr, hb,
      zoomDispatch_rotateVelocity, zoomDispatch_panVelocity]

/-- A plain left-button mouse pointer-down with no modifiers. -/
def exPtrEvt : PointerEvt :=
  { pointerType := "mouse", button := 0, clientX := 10, clientY := 20, pointerId := 1,
    mods := { ctrlKey := false, metaKey := false, altKey := false, shiftKey := false } }

/-- Controller with leftover velocities on all five channels. -/
def cexKeyState : CADCameraControls :=
  { defaultState exPerspCam with
    rotateVelocity := (7, 7), panVelocity := (5, 5),
    dollyVelocity := 3, zoomVelocity := 2, fovVelocity := 2 }

theorem new_interaction_velocity_policy_witness :
    (onPointerDown cexKeyState exPtrEvt 0).1.rotateVelocity = (0, 0)
    ∧ (onPointerDown cexKeyState exPtrEvt 0).1.panVelocity = (0, 0)
    ∧ (onPointerDown cexKeyState exPtrEvt 0).1.dollyVelocity = 0
    ∧ (onPointerDown cexKeyState exPtrEvt 0).1.zoomVelocity = 1
    ∧ (onPointerDown cexKeyState exPtrEvt 0).1.fovVelocity = 1 :=
  new_interaction_velocity_policy.1 cexKeyState exPtrEvt 0 rfl
    (by simp [exPtrEvt])
    (Or.inr (by simp [pointerDownMatch, cexKeyState, defaultState, exPtrEvt]))

/-- `ArrowLeft` with shift held: matches the default keyboard rotate binding. -/
def cexKeyEvt : KeyEvt :=
  { code := "ArrowLeft",
    mods := { ctrlKey := false, metaKey := false, altKey := false, shiftKey := true } }

/-- Arbitrary side-values for the key rotate tick. -/
def cexKeyAux : KeyAux :=
  { pixelDelta := 10, rotA := { yc := 1, ys := 0, pc := 1, ps := 0, rightLen := 1 },
    panA := { dist := 1, tanHalfFov := 1, rightLen := 1, upLen := 1 },
    scrollA := exScrollAux }

/-- C6 counterexample: a keyboard rotate action on a controller with leftover
velocities on every channel performs the rotate tick (dispatching
`change`/`start`/`end`) but leaves the pan, dolly, orthographic-zoom and
fov-zoom velocity channels untouched — the claim that every keyboard action
resets all five channels to rest is false on the code. -/
theorem keyboard_velocity_reset_cex :
    (onKeyDown cexKeyState cexKeyEvt cexKeyAux).1.panVelocity = (5, 5)
    ∧ (onKeyDown cexKeyState cexKeyEvt cexKeyAux).1.dollyVelocity = 3
    ∧ (onKeyDown cexKeyState cexKeyEvt cexKeyAux).1.zoomVelocity = 2
    ∧ (onKeyDown cexKeyState cexKeyEvt cexKeyAux).1.fovVelocity = 2
    ∧ (onKeyDown cexKeyState cexKeyEvt cexKeyAux).2
        = [Evt.change, Evt.startEvent, Evt.endEvent]
    ∧ ¬((5 : ℚ), (5 : ℚ)) = ((0 : ℚ), (0 : ℚ)) := by
  refine ⟨?_, ?_, ?_, ?_, ?_, by norm_num⟩ <;>
    simp [onKeyDown, cexKeyState, cexKeyEvt, cexKeyAux, defaultState, exPerspCam,
      matchAction, hasModifier, hasNoModifier, applyRotate]

section DampingProofs

open scoped Classical

lemma dampingCoeff_nonneg (df dt : ℝ) : 0 ≤ dampingCoeff df dt := by
  unfold dampingCoeff
  apply Real.rpow_nonneg
  have h1 : min 1 df ≤ 1 := min_le_left _ _
  have h2 : max 0.0001 (min 1 df) ≤ 1 := max_le (by norm_num) h1
  linarith

lemma dampingCoeff_pos_lt_one (df dt : ℝ) (h0 : 0 < df) (h1 : df < 1) :
    0 < dampingCoeff df dt ∧ dampingCoeff df dt < 1 := by
  unfold dampingCoeff
  have hmin : min 1 df = df := min_eq_right (le_of_lt h1)
  have hmax1 : max 0.0001 (min 1 df) < 1 := by
    rw [hmin]
    exact max_lt (by norm_num) h1
  have hmax0 : (0 : ℝ) < max 0.0001 (min 1 df) :=
    lt_of_lt_of_le (by norm_num) (le_max_left _ _)
  have hb0 : (0 : ℝ) < 1 - max 0.0001 (min 1 df) := by linarith
  have hb1 : 1 - max 0.0001 (min 1 df) < 1 := by linarith
  have he : (0 : ℝ) < max 0.001 (dt * 60) :=
    lt_of_lt_of_le (by norm_num) (le_max_left _ _)
  exact ⟨Real.rpow_pos_of_pos hb0 _, Real.rpow_lt_one (le_of_lt hb0) hb1 he⟩

lemma updateVel_flags (s : VelState) (dt : ℝ) :
    (updateVel s dt).1.enabled = s.enabled
    ∧ (updateVel s dt).1.enableDamping = s.enableDamping
    ∧ (updateVel s dt).1.isDragging = s.isDragging
    ∧ (updateVel s dt).1.dampingFactor = s.dampingFactor := by
  unfold updateVel
  split
  · exact ⟨rfl, rfl, rfl, rfl⟩
  · exact ⟨rfl, rfl, rfl, rfl⟩

lemma updateVel_fields (s : VelState) (dt : ℝ)
    (hen : s.enabled = true) (hed : s.enableDamping = true) (hdr : s.isDragging = false) :
    (updateVel s dt).1.rotateVelX
        = (if rotActive s then dampingCoeff s.dampingFactor dt * s.rotateVelX
           else s.rotateVelX)
    ∧ (updateVel s dt).1.rotateVelY
        = (if rotActive s then dampingCoeff s.dampingFactor dt * s.rotateVelY
           else s.rotateVelY)
    ∧ (updateVel s dt).1.panVelX
        = (if panActive s then dampingCoeff s.dampingFactor dt * s.panVelX else s.panVelX)
    ∧ (updateVel s dt).1.panVelY
        = (if panActive s then dampingCoeff s.dampingFactor dt * s.panVelY else s.panVelY)
    ∧ (updateVel s dt).1.dollyVel
        = (if dollyActive s then s.dollyVel * dampingCoeff s.dampingFactor dt
           else s.dollyVel)
    ∧ (updateVel s dt).1.zoomVel
        = (if zoomActive s then 1 + (s.zoomVel - 1) * dampingCoeff s.dampingFactor dt
           else s.zoomVel)
    ∧ (updateVel s dt).1.fovVel
        = (if fovActive s then 1 + (s.fovVel - 1) * dampingCoeff s.dampingFactor dt
           else s.fovVel)
    ∧ (updateVel s dt).2
        = (if rotActive s ∨ panActive s ∨ dollyActive s ∨ zoomActive s ∨ fovActive s
           then true else false) := by
  unfold updateVel
  rw [hen, hed, hdr]
  simp

lemma updateVel_at_rest (s : VelState) (dt : ℝ)
    (hrot : ¬rotActive s) (hpan : ¬panActive s) (hdol : ¬dollyActive s)
    (hzoom : ¬zoomActive s) (hfov : ¬fovActive s) :
    updateVel s dt = (s, false) := by
  unfold updateVel
  split
  · rfl
  · simp [hrot, hpan, hdol, hzoom, hfov]

lemma seq_decay_stops (g : ℕ → ℝ) (c eps : ℝ) (hg0 : 0 ≤ g 0) (hc0 : 0 ≤ c) (hc1 : c < 1)
    (heps : 0 < eps)
    (hstep : ∀ n, (eps < g n → g (n + 1) = c * g n) ∧ (g n ≤ eps → g (n + 1) = g n)) :
    ∃ N, ∀ m, N ≤ m → g m ≤ eps := by
  have hbound : ∀ n, g n ≤ max (c ^ n * g 0) eps := by
    intro n
    induction n with
    | zero => simpa using le_max_left (g 0) eps
    | succ n ih =>
      by_cases h : eps < g n
      · rw [(hstep n).1 h]
        have h1 : c * g n ≤ c * max (c ^ n * g 0) eps := mul_le_mul_of_nonneg_left ih hc0
        have h2 : c * max (c ^ n * g 0) eps = max (c * (c ^ n * g 0)) (c * eps) :=
          mul_max_of_nonneg _ _ hc0
        have h3 : c * (c ^ n * g 0) = c ^ (n + 1) * g 0 := by ring
        have h4 : c * eps ≤ eps := by nlinarith
        calc c * g n ≤ max (c * (c ^ n * g 0)) (c * eps) := by rw [← h2]; exact h1
          _ ≤ max (c ^ (n + 1) * g 0) eps := by rw [h3]; exact max_le_max (le_refl _) h4
      · push_neg at h
        rw [(hstep n).2 h]
        exact le_trans h (le_max_right _ _)
  have stay : ∀ N, g N ≤ eps → ∀ m, N ≤ m → g m ≤ eps := by
    intro N hN m hm
    obtain ⟨k, rfl⟩ := Nat.exists_eq_add_of_le hm
    induction k with
    | zero => simpa using hN
    | succ k ih =>
      rw [Nat.add_succ]
      rw [(hstep (N + k)).2 (ih (Nat.le_add_right _ _))]
      exact ih (Nat.le_add_right _ _)
  rcases le_or_lt (g 0) eps with h0 | h0
  · exact ⟨0, stay 0 h0⟩
  · have hg0pos : 0 < g 0 := lt_trans heps h0
    obtain ⟨N, hN⟩ := exists_pow_lt_of_lt_one (div_pos heps hg0pos) hc1
    have hcN : c ^ N * g 0 ≤ eps := by
      have h1 : c ^ N * g 0 < eps / g 0 * g 0 := mul_lt_mul_of_pos_right hN hg0pos
      rw [div_mul_cancel₀ _ (ne_of_gt hg0pos)] at h1
      exact le_of_lt h1
    exact ⟨N, stay N (le_trans (hbound N) (max_le hcN (le_refl eps)))⟩

lemma rotActive_iff (s : VelState) : rotActive s ↔ 0.01 < rotMag s :=
  lt_max_iff.symm

lemma panActive_iff (s : VelState) : panActive s ↔ 0.01 < panMag s :=
  lt_max_iff.symm

lemma rotMag_nonneg (s : VelState) : 0 ≤ rotMag s :=
  le_max_of_le_left (abs_nonneg _)

lemma panMag_nonneg (s : VelState) : 0 ≤ panMag s :=
  le_max_of_le_left (abs_nonneg _)

lemma rotMag_step (t : VelState) (dt : ℝ)
    (hen : t.enabled = true) (hed : t.enableDamping = true) (hdr : t.isDragging = false) :
    (0.01 < rotMag t →
      rotMag (updateVel t dt).1 = dampingCoeff t.dampingFactor dt * rotMag t)
    ∧ (rotMag t ≤ 0.01 → rotMag (updateVel t dt).1 = rotMag t) := by
  have hf := updateVel_fields t dt hen hed hdr
  constructor
  · intro h
    have ha : rotActive t := (rotActive_iff t).mpr h
    unfold rotMag
    rw [hf.1, hf.2.1, if_pos ha, if_pos ha, abs_mul, abs_mul,
      abs_of_nonneg (dampingCoeff_nonneg _ _),
      ← mul_max_of_nonneg _ _ (dampingCoeff_nonneg t.dampingFactor dt)]
  · intro h
    have ha : ¬rotActive t := by
      rw [rotActive_iff]
      exact not_lt.mpr h
    unfold rotMag
    rw [hf.1, hf.2.1, if_neg ha, if_neg ha]

lemma panMag_step (t : VelState) (dt : ℝ)
    (hen : t.enabled = true) (hed : t.enableDamping = true) (hdr : t.isDragging = false) :
    (0.01 < panMag t →
      panMag (updateVel t dt).1 = dampingCoeff t.dampingFactor dt * panMag t)
    ∧ (panMag t ≤ 0.01 → panMag (updateVel t dt).1 = panMag t) := by
  have hf := updateVel_fields t dt hen hed hdr
  constructor
  · intro h
    have ha : panActive t := (panActive_iff t).mpr h
    unfold panMag
    rw [hf.2.2.1, hf.2.2.2.1, if_pos ha, if_pos ha, abs_mul, abs_mul,
      abs_of_nonneg (dampingCoeff_nonneg _ _),
      ← mul_max_of_nonneg _ _ (dampingCoeff_nonneg t.dampingFactor dt)]
  · intro h
    have ha : ¬panActive t := by
      rw [panActive_iff]
      exact not_lt.mpr h
    unfold panMag
    rw [hf.2.2.1, hf.2.2.2.1, if_neg ha, if_neg ha]

lemma dollyMag_step (t : VelState) (dt : ℝ)
    (hen : t.enabled = true) (hed : t.enableDamping = true) (hdr : t.isDragging = false) :
    (0.01 < dollyMag t →
      dollyMag (updateVel t dt).1 = dampingCoeff t.dampingFactor dt * dollyMag t)
    ∧ (dollyMag t ≤ 0.01 → dollyMag (updateVel t dt).1 = dollyMag t) := by
  have hf := updateVel_fields t dt hen hed hdr
  constructor
  · intro h
    have ha : dollyActive t := h
    unfold dollyMag
    rw [hf.2.2.2.2.1, if_pos ha, abs_mul,
      abs_of_nonneg (dampingCoeff_nonneg _ _), mul_comm]
  · intro h
    have ha : ¬dollyActive t := not_lt.mpr h
    unfold dollyMag
    rw [hf.2.2.2.2.1, if_neg ha]

lemma zoomMag_step (t : VelState) (dt : ℝ)
    (hen : t.enabled = true) (hed : t.enableDamping = true) (hdr : t.isDragging = false) :
    (0.0001 < zoomMag t →
      zoomMag (updateVel t dt).1 = dampingCoeff t.dampingFactor dt * zoomMag t)
    ∧ (zoomMag t ≤ 0.0001 → zoomMag (updateVel t dt).1 = zoomMag t) := by
  have hf := updateVel_fields t dt hen hed hdr
  constructor
  · intro h
    have ha : zoomActive t := h
    unfold zoomMag
    rw [hf.2.2.2.2.2.1, if_pos ha]
    have h2 : 1 + (t.zoomVel - 1) * dampingCoeff t.dampingFactor dt - 1
        = (t.zoomVel - 1) * dampingCoeff t.dampingFactor dt := by ring
    rw [h2, abs_mul, abs_of_nonneg (dampingCoeff_nonneg _ _), mul_comm]
  · intro h
    have ha : ¬zoomActive t := not_lt.mpr h
    unfold zoomMag
    rw [hf.2.2.2.2.2.1, if_neg ha]

lemma fovMag_step (t : VelState) (dt : ℝ)
    (hen : t.enabled = true) (hed : t.enableDamping = true) (hdr : t.isDragging = false) :
    (0.0001 < fovMag t →
      fovMag (updateVel t dt).1 = dampingCoeff t.dampingFactor dt * fovMag t)
    ∧ (fovMag t ≤ 0.0001 → fovMag (updateVel t dt).1 = fovMag t) := by
  have hf := updateVel_fields t dt hen hed hdr
  constructor
  · intro h
    have ha : fovActive t := h
    unfold fovMag
    rw [hf.2.2.2.2.2.2.1, if_pos ha]
    have h2 : 1 + (t.fovVel - 1) * dampingCoeff t.dampingFactor dt - 1
        = (t.fovVel - 1) * dampingCoeff t.dampingFactor dt := by ring
    rw [h2, abs_mul, abs_of_nonneg (dampingCoeff_nonneg _ _), mul_comm]
  · intro h
    have ha : ¬fovActive t := not_lt.mpr h
    unfold fovMag
    rw [hf.2.2.2.2.2.2.1, if_neg ha]

lemma updateVelIter_flags (s : VelState) (dt : ℝ) (n : ℕ) :
    (updateVelIter s dt n).enabled = s.enabled
    ∧ (updateVelIter s dt n).enableDamping = s.enableDamping
    ∧ (updateVelIter s dt n).isDragging = s.isDragging
    ∧ (updateVelIter s dt n).dampingFactor = s.dampingFactor := by
  induction n with
  | zero => exact ⟨rfl, rfl, rfl, rfl⟩
  | succ n ih =>
    have h := updateVel_flags (updateVelIter s dt n) dt
    exact ⟨h.1.trans ih.1, h.2.1.trans ih.2.1, h.2.2.1.trans ih.2.2.1,
      h.2.2.2.trans ih.2.2.2⟩

lemma update_eventually_stops (s : VelState) (dt : ℝ)
    (hdf0 : 0 < s.dampingFactor) (hdf1 : s.dampingFactor < 1)
    (hen : s.enabled = true) (hed : s.enableDamping = true) (hdr : s.isDragging = false) :
    ∃ N, updateVel (updateVelIter s dt N) dt = (updateVelIter s dt N, false) := by
  obtain ⟨hc0, hc1⟩ := dampingCoeff_pos_lt_one s.dampingFactor dt hdf0 hdf1
  have hflags : ∀ n, (updateVelIter s dt n).enabled = true
      ∧ (updateVelIter s dt n).enableDamping = true
      ∧ (updateVelIter s dt n).isDragging = false
      ∧ (updateVelIter s dt n).dampingFactor = s.dampingFactor := by
    intro n
    have h := updateVelIter_flags s dt n
    exact ⟨h.1.trans hen, h.2.1.trans hed, h.2.2.1.trans hdr, h.2.2.2⟩
  obtain ⟨N1, h1⟩ := seq_decay_stops (fun n => rotMag (updateVelIter s dt n))
    (dampingCoeff s.dampingFactor dt) 0.01 (rotMag_nonneg _) (le_of_lt hc0) hc1
    (by norm_num) (by
      intro n
      have hfl := hflags n
      have h := rotMag_step (updateVelIter s dt n) dt hfl.1 hfl.2.1 hfl.2.2.1
      rw [hfl.2.2.2] at h
      exact h)
  obtain ⟨N2, h2⟩ := seq_decay_stops (fun n => panMag (updateVelIter s dt n))
    (dampingCoeff s.dampingFactor dt) 0.01 (panMag_nonneg _) (le_of_lt hc0) hc1
    (by norm_num) (by
      intro n
      have hfl := hflags n
      have h := panMag_step (updateVelIter s dt n) dt hfl.1 hfl.2.1 hfl.2.2.1
      rw [hfl.2.2.2] at h
      exact h)
  obtain ⟨N3, h3⟩ := seq_decay_stops (fun n => dollyMag (updateVelIter s dt n))
    (dampingCoeff s.dampingFactor dt) 0.01 (abs_nonneg _) (le_of_lt hc0) hc1
    (by norm_num) (by
      intro n
      have hfl := hflags n
      have h := dollyMag_step (updateVelIter s dt n) dt hfl.1 hfl.2.1 hfl.2.2.1
      rw [hfl.2.2.2] at h
      exact h)
  obtain ⟨N4, h4⟩ := seq_decay_stops (fun n => zoomMag (updateVelIter s dt n))
    (dampingCoeff s.dampingFactor dt) 0.0001 (abs_nonneg _) (le_of_lt hc0) hc1
    (by norm_num) (by
      intro n
      have hfl := hflags n
      have h := zoomMag_step (updateVelIter s dt n) dt hfl.1 hfl.2.1 hfl.2.2.1
      rw [hfl.2.2.2] at h
      exact h)
  obtain ⟨N5, h5⟩ := seq_decay_stops (fun n => fovMag (updateVelIter s dt n))
    (dampingCoeff s.dampingFactor dt) 0.0001 (abs_nonneg _) (le_of_lt hc0) hc1
    (by norm_num) (by
      intro n
      have hfl := hflags n
      have h := fovMag_step (updateVelIter s dt n) dt hfl.1 hfl.2.1 hfl.2.2.1
      rw [hfl.2.2.2] at h
      exact h)
  refine ⟨max (max (max (max N1 N2) N3) N4) N5, ?_⟩
  have e1 : N1 ≤ max (max (max (max N1 N2) N3) N4) N5 :=
    le_trans (le_max_left _ _) (le_trans (le_max_left _ _)
      (le_trans (le_max_left _ _) (le_max_left _ _)))
  have e2 : N2 ≤ max (max (max (max N1 N2) N3) N4) N5 :=
    le_trans (le_max_right _ _) (le_trans (le_max_left _ _)
      (le_trans (le_max_left _ _) (le_max_left _ _)))
  have e3 : N3 ≤ max (max (max (max N1 N2) N3) N4) N5 :=
    le_trans (le_max_right _ _) (le_trans (le_max_left _ _) (le_max_left _ _))
  have e4 : N4 ≤ max (max (max (max N1 N2) N3) N4) N5 :=
    le_trans (le_max_right _ _) (le_max_left _ _)
  have e5 : N5 ≤ max (max (max (max N1 N2) N3) N4) N5 := le_max_right _ _
  apply updateVel_at_rest
  · rw [rotActive_iff]
    exact not_lt.mpr (h1 _ e1)
  · rw [panActive_iff]
    exact not_lt.mpr (h2 _ e2)
  · exact not_lt.mpr (h3 _ e3)
  · exact not_lt.mpr (h4 _ e4)
  · exact not_lt.mpr (h5 _ e5)

lemma rotDisp_le_mag (t : VelState) : rotDisp t ≤ rotMag t := by
  unfold rotDisp
  split
  · exact le_refl _
  · exact rotMag_nonneg t

lemma panDisp_le_mag (t : VelState) : panDisp t ≤ panMag t := by
  unfold panDisp
  split
  · exact le_refl _
  · exact panMag_nonneg t

lemma dollyDisp_le_mag (t : VelState) : dollyDisp t ≤ dollyMag t := by
  unfold dollyDisp
  split
  · exact le_refl _
  · exact abs_nonneg _

lemma zoomDisp_le_mag (t : VelState) : zoomDisp t ≤ zoomMag t := by
  unfold zoomDisp
  split
  · exact le_refl _
  · exact abs_nonneg _

lemma fovDisp_le_mag (t : VelState) : fovDisp t ≤ fovMag t := by
  unfold fovDisp
  split
  · exact le_refl _
  · exact abs_nonneg _

/-- C4: with `dampingFactor` strictly inside (0, 1), damping enabled and no
active drag, the per-frame damping coefficient lies in (0, 1); each active
velocity channel's per-frame displacement magnitude strictly decreases on the
next `update()` call; a channel below its stop threshold contributes exactly
zero displacement and its velocity is left untouched; when all channels are at
rest `update()` returns `(s, false)`; and iterating `update()` with a constant
delta the controller reaches, in finitely many frames, a state in which
`update()` changes nothing and returns `false`. -/
theorem update_damping_monotone (s : VelState) (dt : ℝ)
    (hdf0 : 0 < s.dampingFactor) (hdf1 : s.dampingFactor < 1)
    (hen : s.enabled = true) (hed : s.enableDamping = true) (hdr : s.isDragging = false) :
    (0 < dampingCoeff s.dampingFactor dt ∧ dampingCoeff s.dampingFactor dt < 1)
    ∧ (rotActive s → rotDisp (updateVel s dt).1 < rotDisp s)
    ∧ (¬rotActive s → rotDisp s = 0
        ∧ (updateVel s dt).1.rotateVelX = s.rotateVelX
        ∧ (updateVel s dt).1.rotateVelY = s.rotateVelY)
    ∧ (panActive s → panDisp (updateVel s dt).1 < panDisp s)
    ∧ (¬panActive s → panDisp s = 0
        ∧ (updateVel s dt).1.panVelX = s.panVelX
        ∧ (updateVel s dt).1.panVelY = s.panVelY)
    ∧ (dollyActive s → dollyDisp (updateVel s dt).1 < dollyDisp s)
    ∧ (¬dollyActive s → dollyDisp s = 0 ∧ (updateVel s dt).1.dollyVel = s.dollyVel)
    ∧ (zoomActive s → zoomDisp (updateVel s dt).1 < zoomDisp s)
    ∧ (¬zoomActive s → zoomDisp s = 0 ∧ (updateVel s dt).1.zoomVel = s.zoomVel)
    ∧ (fovActive s → fovDisp (updateVel s dt).1 < fovDisp s)
    ∧ (¬fovActive s → fovDisp s = 0 ∧ (updateVel s dt).1.fovVel = s.fovVel)
    ∧ ((¬rotActive s ∧ ¬panActive s ∧ ¬dollyActive s ∧ ¬zoomActive s ∧ ¬fovActive s) →
        updateVel s dt = (s, false))
    ∧ (∃ N, updateVel (updateVelIter s dt N) dt = (updateVelIter s dt N, false)) := by
  obtain ⟨hc0, hc1⟩ := dampingCoeff_pos_lt_one s.dampingFactor dt hdf0 hdf1
  have hf := updateVel_fields s dt hen hed hdr
  refine ⟨⟨hc0, hc1⟩, ?_, ?_, ?_, ?_, ?_, ?_, ?_, ?_, ?_, ?_, ?_, ?_⟩
  · intro ha
    have hmag : (0.01 : ℝ) < rotMag s := (rotActive_iff s).mp ha
    have hpos : 0 < rotMag s := lt_trans (by norm_num) hmag
    calc rotDisp (updateVel s dt).1 ≤ rotMag (updateVel s dt).1 := rotDisp_le_mag _
      _ = dampingCoeff s.dampingFactor dt * rotMag s := (rotMag_step s dt hen hed hdr).1 hmag
      _ < rotMag s := mul_lt_of_lt_one_left hpos hc1
      _ = rotDisp s := by unfold rotDisp; rw [if_pos ha]
  · intro ha
    refine ⟨by unfold rotDisp; rw [if_neg ha], ?_, ?_⟩
    · rw [hf.1, if_neg ha]
    · rw [hf.2.1, if_neg ha]
  · intro ha
    have hmag : (0.01 : ℝ) < panMag s := (panActive_iff s).mp ha
    have hpos : 0 < panMag s := lt_trans (by norm_num) hmag
    calc panDisp (updateVel s dt).1 ≤ panMag (updateVel s dt).1 := panDisp_le_mag _
      _ = dampingCoeff s.dampingFactor dt * panMag s := (panMag_step s dt hen hed hdr).1 hmag
      _ < panMag s := mul_lt_of_lt_one_left hpos hc1
      _ = panDisp s := by unfold panDisp; rw [if_pos ha]
  · intro ha
    refine ⟨by unfold panDisp; rw [if_neg ha], ?_, ?_⟩
    · rw [hf.2.2.1, if_neg ha]
    · rw [hf.2.2.2.1, if_neg ha]
  · intro ha
    have hmag : (0.01 : ℝ) < dollyMag s := ha
    have hpos : 0 < dollyMag s := lt_trans (by norm_num) hmag
    calc dollyDisp (updateVel s dt).1 ≤ dollyMag (updateVel s dt).1 := dollyDisp_le_mag _
      _ = dampingCoeff s.dampingFactor dt * dollyMag s :=
          (dollyMag_step s dt hen hed hdr).1 hmag
      _ < dollyMag s := mul_lt_of_lt_one_left hpos hc1
      _ = dollyDisp s := by unfold dollyDisp; rw [if_pos ha]
  · intro ha
    exact ⟨by unfold dollyDisp; rw [if_neg ha], by rw [hf.2.2.2.2.1, if_neg ha]⟩
  · intro ha
    have hmag : (0.0001 : ℝ) < zoomMag s := ha
    have hpos : 0 < zoomMag s := lt_trans (by norm_num) hmag
    calc zoomDisp (updateVel s dt).1 ≤ zoomMag (updateVel s dt).1 := zoomDisp_le_mag _
      _ = dampingCoeff s.dampingFactor dt * zoomMag s :=
          (zoomMag_step s dt hen hed hdr).1 hmag
      _ < zoomMag s := mul_lt_of_lt_one_left hpos hc1
      _ = zoomDisp s := by unfold zoomDisp; rw [if_pos ha]
  · intro ha
    exact ⟨by unfold zoomDisp; rw [if_neg ha], by rw [hf.2.2.2.2.2.1, if_neg ha]⟩
  · intro ha
    have hmag : (0.0001 : ℝ) < fovMag s := ha
    have hpos : 0 < fovMag s := lt_trans (by norm_num) hmag
    calc fovDisp (updateVel s dt).1 ≤ fovMag (updateVel s dt).1 := fovDisp_le_mag _
      _ = dampingCoeff s.dampingFactor dt * fovMag s :=
          (fovMag_step s dt hen hed hdr).1 hmag
      _ < fovMag s := mul_lt_of_lt_one_left hpos hc1
      _ = fovDisp s := by unfold fovDisp; rw [if_pos ha]
  · intro ha
    exact ⟨by unfold fovDisp; rw [if_neg ha], by rw [hf.2.2.2.2.2.2.1, if_neg ha]⟩
  · intro ⟨h1, h2, h3, h4, h5⟩
    exact updateVel_at_rest s dt h1 h2 h3 h4 h5
  · exact update_eventually_stops s dt hdf0 hdf1 hen hed hdr

/-- A controller state with momentum on the rotate and dolly channels. -/
noncomputable def exVelState : VelState :=
  { enabled := true, enableDamping := true, isDragging := false, dampingFactor := 1/2,
    rotateVelX := 1, rotateVelY := 0, panVelX := 0, panVelY := 0, dollyVel := 1,
    zoomVel := 1, fovVel := 1 }

theorem update_damping_monotone_witness :
    (0 < dampingCoeff exVelState.dampingFactor (1/60)
      ∧ dampingCoeff exVelState.dampingFactor (1/60) < 1)
    ∧ (rotActive exVelState →
        rotDisp (updateVel exVelState (1/60)).1 < rotDisp exVelState)
    ∧ (¬rotActive exVelState → rotDisp exVelState = 0
        ∧ (updateVel exVelState (1/60)).1.rotateVelX = exVelState.rotateVelX
        ∧ (updateVel exVelState (1/60)).1.rotateVelY = exVelState.rotateVelY)
    ∧ (panActive exVelState →
        panDisp (updateVel exVelState (1/60)).1 < panDisp exVelState)
    ∧ (¬panActive exVelState → panDisp exVelState = 0
        ∧ (updateVel exVelState (1/60)).1.panVelX = exVelState.panVelX
        ∧ (updateVel exVelState (1/60)).1.panVelY = exVelState.panVelY)
    ∧ (dollyActive exVelState →
        dollyDisp (updateVel exVelState (1/60)).1 < dollyDisp exVelState)
    ∧ (¬dollyActive exVelState → dollyDisp exVelState = 0
        ∧ (updateVel exVelState (1/60)).1.dollyVel = exVelState.dollyVel)
    ∧ (zoomActive exVelState →
        zoomDisp (updateVel exVelState (1/60)).1 < zoomDisp exVelState)
    ∧ (¬zoomActive exVelState → zoomDisp exVelState = 0
        ∧ (updateVel exVelState (1/60)).1.zoomVel = exVelState.zoomVel)
    ∧ (fovActive exVelState →
        fovDisp (updateVel exVelState (1/60)).1 < fovDisp exVelState)
    ∧ (¬fovActive exVelState → fovDisp exVelState = 0
        ∧ (updateVel exVelState (1/60)).1.fovVel = exVelState.fovVel)
    ∧ ((¬rotActive exVelState ∧ ¬panActive exVelState ∧ ¬dollyActive exVelState
        ∧ ¬zoomActive exVelState ∧ ¬fovActive exVelState) →
        updateVel exVelState (1/60) = (exVelState, false))
    ∧ (∃ N, updateVel (updateVelIter exVelState (1/60) N) (1/60)
        = (updateVelIter exVelState (1/60) N, false)) :=
  update_damping_monotone exVelState (1/60)
    (by norm_num [exVelState]) (by norm_num [exVelState]) rfl rfl rfl

lemma dampingCoeff_half (df dt : ℝ) (hdt : 0 < dt) (hmin : 0.001 ≤ dt / 2 * 60) :
    dampingCoeff df (dt / 2) * dampingCoeff df (dt / 2) = dampingCoeff df dt := by
  unfold dampingCoeff
  have hb : (0 : ℝ) ≤ 1 - max 0.0001 (min 1 df) := by
    have h2 : max 0.0001 (min 1 df) ≤ 1 := max_le (by norm_num) (min_le_left _ _)
    linarith
  have h1 : max 0.001 (dt / 2 * 60) = dt / 2 * 60 := max_eq_right hmin
  have h2 : max 0.001 (dt * 60) = dt * 60 := max_eq_right (by nlinarith)
  rw [h1, h2]
  have h3 : dt * 60 = dt / 2 * 60 + dt / 2 * 60 := by ring
  rw [h3, Real.rpow_add' hb (by rw [← h3]; positivity)]

/-- Concrete evaluation of the damping coefficient at `dampingFactor = 3/4`
and a 60fps frame delta: the exponent `max(0.001, 1/60 * 60)` is `1` and the
coefficient is `1/4`. -/
lemma dampingCoeff_eval_one : dampingCoeff (3/4) (1/60) = 1/4 := by
  unfold dampingCoeff
  have h1 : min (1 : ℝ) (3/4) = 3/4 := by norm_num
  have h2 : max (0.0001 : ℝ) (3/4) = 3/4 := by norm_num
  have h3 : max (0.001 : ℝ) ((1 : ℝ)/60 * 60) = 1 := by norm_num
  rw [h1, h2, h3, show (1 : ℝ) - 3/4 = 1/4 by norm_num, Real.rpow_one]

/-- Concrete evaluation of the damping coefficient at `dampingFactor = 3/4`
and a 120fps frame delta: the exponent is `1/2` and the coefficient is
`(1/4) ^ (1/2) = 1/2`. -/
lemma dampingCoeff_eval_half : dampingCoeff (3/4) (1/120) = 1/2 := by
  unfold dampingCoeff
  have h1 : min (1 : ℝ) (3/4) = 3/4 := by norm_num
  have h2 : max (0.0001 : ℝ) (3/4) = 3/4 := by norm_num
  have h3 : max (0.001 : ℝ) ((1 : ℝ)/120 * 60) = 1/2 := by norm_num
  rw [h1, h2, h3, show (1 : ℝ) - 3/4 = 1/4 by norm_num, ← Real.sqrt_eq_rpow,
      show (1 : ℝ)/4 = (1/2) ^ 2 by norm_num,
      Real.sqrt_sq (by norm_num : (0 : ℝ) ≤ 1/2)]

/-- A controller state carrying only dolly momentum `0.02`, with
`dampingFactor = 3/4`: one frame at 120fps leaves the dolly velocity at
exactly the stop threshold `0.01`, where the next frame's guard fails. -/
noncomputable def cexVelState : VelState :=
  { enabled := true, enableDamping := true, isDragging := false, dampingFactor := 3/4,
    rotateVelX := 0, rotateVelY := 0, panVelX := 0, panVelY := 0, dollyVel := 1/50,
    zoomVel := 1, fovVel := 1 }

/-- C5 counterexample: at `dampingFactor = 3/4` a single `update()` call with
`deltaSeconds = 1/60` damps the dolly velocity `0.02` to `0.005`, but two
consecutive `update()` calls with `deltaSeconds = 1/120` leave it at `0.01`:
the first half-step lands exactly on the stop threshold `STOP_EPSILON = 0.01`,
the second half-step's guard `|dollyVelocity| > 0.01` fails, and the channel
is not decayed at all.  Doubling the frame rate therefore does change how fast
the velocity decays in wall-clock time, refuting the claimed unconditional
frame-rate independence (the per-channel stop guards break the exponent law). -/
theorem update_frame_rate_cex :
    (updateVel (updateVel cexVelState (1/120)).1 (1/120)).1.dollyVel = 1/100
    ∧ (updateVel cexVelState (1/60)).1.dollyVel = 1/200
    ∧ (updateVel (updateVel cexVelState (1/120)).1 (1/120)).1.dollyVel
        ≠ (updateVel cexVelState (1/60)).1.dollyVel := by
  have hact : dollyActive cexVelState := by
    unfold dollyActive cexVelState
    norm_num [abs_of_nonneg]
  have hf0 := updateVel_fields cexVelState (1/120) rfl rfl rfl
  have hfl := updateVel_flags cexVelState (1/120)
  have hd1 : (updateVel cexVelState (1/120)).1.dollyVel = 1/100 := by
    rw [hf0.2.2.2.2.1, if_pos hact,
        show cexVelState.dollyVel = (1 : ℝ)/50 from rfl,
        show cexVelState.dampingFactor = (3 : ℝ)/4 from rfl,
        dampingCoeff_eval_half]
    norm_num
  have hnact : ¬ dollyActive (updateVel cexVelState (1/120)).1 := by
    unfold dollyActive
    rw [hd1]
    norm_num [abs_of_nonneg]
  have hen1 : (updateVel cexVelState (1/120)).1.enabled = true := by
    rw [hfl.1]
    rfl
  have hed1 : (updateVel cexVelState (1/120)).1.enableDamping = true := by
    rw [hfl.2.1]
    rfl
  have hdr1 : (updateVel cexVelState (1/120)).1.isDragging = false := by
    rw [hfl.2.2.1]
    rfl
  have hf1 := updateVel_fields (updateVel cexVelState (1/120)).1 (1/120) hen1 hed1 hdr1
  have hfull := updateVel_fields cexVelState (1/60) rfl rfl rfl
  have hdfull : (updateVel cexVelState (1/60)).1.dollyVel = 1/200 := by
    rw [hfull.2.2.2.2.1, if_pos hact,
        show cexVelState.dollyVel = (1 : ℝ)/50 from rfl,
        show cexVelState.dampingFactor = (3 : ℝ)/4 from rfl,
        dampingCoeff_eval_one]
    norm_num
  have hdhalf2 : (updateVel (updateVel cexVelState (1/120)).1 (1/120)).1.dollyVel
      = 1/100 := by
    rw [hf1.2.2.2.2.1, if_neg hnact, hd1]
  refine ⟨hdhalf2, hdfull, ?_⟩
  rw [hdhalf2, hdfull]
  norm_num

/-- C5 (amended): one `update()` call multiplies each velocity channel whose
stop-guard holds by the damping coefficient
`(1 - clamp(dampingFactor, 0.0001, 1)) ^ max(0.001, dt * 60)` and leaves every
channel at or below its stop threshold unchanged; the coefficient obeys the
half-step law `c(dt/2) * c(dt/2) = c(dt)` whenever `0.001 ≤ dt/2 * 60`; and
consequently two consecutive `update()` calls with delta `dt/2` leave every
velocity field equal to what a single call with delta `dt` leaves, provided
every channel active beforehand is still active after the first half-step.
At the stop-threshold boundary that proviso fails and the two schedules
genuinely differ (see the counterexample). -/
theorem update_frame_rate_independence (s : VelState) (dt : ℝ)
    (hdt : 0 < dt) (hmin : 0.001 ≤ dt / 2 * 60)
    (hen : s.enabled = true) (hed : s.enableDamping = true) (hdr : s.isDragging = false)
    (hrot : rotActive s → rotActive (updateVel s (dt / 2)).1)
    (hpan : panActive s → panActive (updateVel s (dt / 2)).1)
    (hdol : dollyActive s → dollyActive (updateVel s (dt / 2)).1)
    (hzoom : zoomActive s → zoomActive (updateVel s (dt / 2)).1)
    (hfov : fovActive s → fovActive (updateVel s (dt / 2)).1) :
    ((updateVel s dt).1.rotateVelX
        = (if rotActive s then dampingCoeff s.dampingFactor dt * s.rotateVelX
           else s.rotateVelX))
    ∧ ((updateVel s dt).1.rotateVelY
        = (if rotActive s then dampingCoeff s.dampingFactor dt * s.rotateVelY
           else s.rotateVelY))
    ∧ ((updateVel s dt).1.panVelX
        = (if panActive s then dampingCoeff s.dampingFactor dt * s.panVelX
           else s.panVelX))
    ∧ ((updateVel s dt).1.panVelY
        = (if panActive s then dampingCoeff s.dampingFactor dt * s.panVelY
           else s.panVelY))
    ∧ ((updateVel s dt).1.dollyVel
        = (if dollyActive s then s.dollyVel * dampingCoeff s.dampingFactor dt
           else s.dollyVel))
    ∧ ((updateVel s dt).1.zoomVel
        = (if zoomActive s then 1 + (s.zoomVel - 1) * dampingCoeff s.dampingFactor dt
           else s.zoomVel))
    ∧ ((updateVel s dt).1.fovVel
        = (if fovActive s then 1 + (s.fovVel - 1) * dampingCoeff s.dampingFactor dt
           else s.fovVel))
    ∧ (dampingCoeff s.dampingFactor (dt / 2) * dampingCoeff s.dampingFactor (dt / 2)
        = dampingCoeff s.dampingFactor dt)
    ∧ ((updateVel (updateVel s (dt / 2)).1 (dt / 2)).1.rotateVelX
        = (updateVel s dt).1.rotateVelX)
    ∧ ((updateVel (updateVel s (dt / 2)).1 (dt / 2)).1.rotateVelY
        = (updateVel s dt).1.rotateVelY)
    ∧ ((updateVel (updateVel s (dt / 2)).1 (dt / 2)).1.panVelX
        = (updateVel s dt).1.panVelX)
    ∧ ((updateVel (updateVel s (dt / 2)).1 (dt / 2)).1.panVelY
        = (updateVel s dt).1.panVelY)
    ∧ ((updateVel (updateVel s (dt / 2)).1 (dt / 2)).1.dollyVel
        = (updateVel s dt).1.dollyVel)
    ∧ ((updateVel (updateVel s (dt / 2)).1 (dt / 2)).1.zoomVel
        = (updateVel s dt).1.zoomVel)
    ∧ ((updateVel (updateVel s (dt / 2)).1 (dt / 2)).1.fovVel
        = (updateVel s dt).1.fovVel) := by
  have hc := dampingCoeff_half s.dampingFactor dt hdt hmin
  have hf := updateVel_fields s dt hen hed hdr
  have hf1 := updateVel_fields s (dt / 2) hen hed hdr
  have hfl := updateVel_flags s (dt / 2)
  have hen1 : (updateVel s (dt / 2)).1.enabled = true := by rw [hfl.1, hen]
  have hed1 : (updateVel s (dt / 2)).1.enableDamping = true := by rw [hfl.2.1, hed]
  have hdr1 : (updateVel s (dt / 2)).1.isDragging = false := by rw [hfl.2.2.1, hdr]
  have hdf1 : (updateVel s (dt / 2)).1.dampingFactor = s.dampingFactor := hfl.2.2.2
  have hf2 := updateVel_fields (updateVel s (dt / 2)).1 (dt / 2) hen1 hed1 hdr1
  have hrot2 : ¬ rotActive s → ¬ rotActive (updateVel s (dt / 2)).1 := by
    intro h hcon
    apply h
    unfold rotActive at hcon ⊢
    rwa [hf1.1, if_neg h, hf1.2.1, if_neg h] at hcon
  have hpan2 : ¬ panActive s → ¬ panActive (updateVel s (dt / 2)).1 := by
    intro h hcon
    apply h
    unfold panActive at hcon ⊢
    rwa [hf1.2.2.1, if_neg h, hf1.2.2.2.1, if_neg h] at hcon
  have hdol2 : ¬ dollyActive s → ¬ dollyActive (updateVel s (dt / 2)).1 := by
    intro h hcon
    apply h
    unfold dollyActive at hcon ⊢
    rwa [hf1.2.2.2.2.1, if_neg h] at hcon
  have hzoom2 : ¬ zoomActive s → ¬ zoomActive (updateVel s (dt / 2)).1 := by
    intro h hcon
    apply h
    unfold zoomActive at hcon ⊢
    rwa [hf1.2.2.2.2.2.1, if_neg h] at hcon
  have hfov2 : ¬ fovActive s → ¬ fovActive (updateVel s (dt / 2)).1 := by
    intro h hcon
    apply h
    unfold fovActive at hcon ⊢
    rwa [hf1.2.2.2.2.2.2.1, if_neg h] at hcon
  refine ⟨hf.1, hf.2.1, hf.2.2.1, hf.2.2.2.1, hf.2.2.2.2.1, hf.2.2.2.2.2.1,
    hf.2.2.2.2.2.2.1, hc, ?_, ?_, ?_, ?_, ?_, ?_, ?_⟩
  · by_cases h : rotActive s
    · rw [hf2.1, if_pos (hrot h), hdf1, hf1.1, if_pos h, hf.1, if_pos h, ← hc]
      ring
    · rw [hf2.1, if_neg (hrot2 h), hf1.1, if_neg h, hf.1, if_neg h]
  · by_cases h : rotActive s
    · rw [hf2.2.1, if_pos (hrot h), hdf1, hf1.2.1, if_pos h, hf.2.1, if_pos h, ← hc]
      ring
    · rw [hf2.2.1, if_neg (hrot2 h), hf1.2.1, if_neg h, hf.2.1, if_neg h]
  · by_cases h : panActive s
    · rw [hf2.2.2.1, if_pos (hpan h), hdf1, hf1.2.2.1, if_pos h, hf.2.2.1, if_pos h,
          ← hc]
      ring
    · rw [hf2.2.2.1, if_neg (hpan2 h), hf1.2.2.1, if_neg h, hf.2.2.1, if_neg h]
  · by_cases h : panActive s
    · rw [hf2.2.2.2.1, if_pos (hpan h), hdf1, hf1.2.2.2.1, if_pos h, hf.2.2.2.1,
          if_pos h, ← hc]
      ring
    · rw [hf2.2.2.2.1, if_neg (hpan2 h), hf1.2.2.2.1, if_neg h, hf.2.2.2.1, if_neg h]
  · by_cases h : dollyActive s
    · rw [hf2.2.2.2.2.1, if_pos (hdol h), hdf1, hf1.2.2.2.2.1, if_pos h,
          hf.2.2.2.2.1, if_pos h, ← hc]
      ring
    · rw [hf2.2.2.2.2.1, if_neg (hdol2 h), hf1.2.2.2.2.1, if_neg h, hf.2.2.2.2.1,
          if_neg h]
  · by_cases h : zoomActive s
    · rw [hf2.2.2.2.2.2.1, if_pos (hzoom h), hdf1, hf1.2.2.2.2.2.1, if_pos h,
          hf.2.2.2.2.2.1, if_pos h, ← hc]
      ring
    · rw [hf2.2.2.2.2.2.1, if_neg (hzoom2 h), hf1.2.2.2.2.2.1, if_neg h,
          hf.2.2.2.2.2.1, if_neg h]
  · by_cases h : fovActive s
    · rw [hf2.2.2.2.2.2.2.1, if_pos (hfov h), hdf1, hf1.2.2.2.2.2.2.1, if_pos h,
          hf.2.2.2.2.2.2.1, if_pos h, ← hc]
      ring
    · rw [hf2.2.2.2.2.2.2.1, if_neg (hfov2 h), hf1.2.2.2.2.2.2.1, if_neg h,
          hf.2.2.2.2.2.2.1, if_neg h]

/-- A controller state with all five channels active and `dampingFactor = 3/4`,
far enough from every stop threshold that one 120fps frame keeps every channel
active. -/
noncomputable def frVelState : VelState :=
  { enabled := true, enableDamping := true, isDragging := false, dampingFactor := 3/4,
    rotateVelX := 1, rotateVelY := 0, panVelX := 1, panVelY := 0, dollyVel := 1,
    zoomVel := 2, fovVel := 2 }

theorem update_frame_rate_independence_witness :
    ((updateVel frVelState (1/60)).1.rotateVelX
        = (if rotActive frVelState
           then dampingCoeff frVelState.dampingFactor (1/60) * frVelState.rotateVelX
           else frVelState.rotateVelX))
    ∧ ((updateVel frVelState (1/60)).1.rotateVelY
        = (if rotActive frVelState
           then dampingCoeff frVelState.dampingFactor (1/60) * frVelState.rotateVelY
           else frVelState.rotateVelY))
    ∧ ((updateVel frVelState (1/60)).1.panVelX
        = (if panActive frVelState
           then dampingCoeff frVelState.dampingFactor (1/60) * frVelState.panVelX
           else frVelState.panVelX))
    ∧ ((updateVel frVelState (1/60)).1.panVelY
        = (if panActive frVelState
           then dampingCoeff frVelState.dampingFactor (1/60) * frVelState.panVelY
           else frVelState.panVelY))
    ∧ ((updateVel frVelState (1/60)).1.dollyVel
        = (if dollyActive frVelState
           then frVelState.dollyVel * dampingCoeff frVelState.dampingFactor (1/60)
           else frVelState.dollyVel))
    ∧ ((updateVel frVelState (1/60)).1.zoomVel
        = (if zoomActive frVelState
           then 1 + (frVelState.zoomVel - 1) * dampingCoeff frVelState.dampingFactor (1/60)
           else frVelState.zoomVel))
    ∧ ((updateVel frVelState (1/60)).1.fovVel
        = (if fovActive frVelState
           then 1 + (frVelState.fovVel - 1) * dampingCoeff frVelState.dampingFactor (1/60)
           else frVelState.fovVel))
    ∧ (dampingCoeff frVelState.dampingFactor (1/60 / 2)
          * dampingCoeff frVelState.dampingFactor (1/60 / 2)
        = dampingCoeff frVelState.dampingFactor (1/60))
    ∧ ((updateVel (updateVel frVelState (1/60 / 2)).1 (1/60 / 2)).1.rotateVelX
        = (updateVel frVelState (1/60)).1.rotateVelX)
    ∧ ((updateVel (updateVel frVelState (1/60 / 2)).1 (1/60 / 2)).1.rotateVelY
        = (updateVel frVelState (1/60)).1.rotateVelY)
    ∧ ((updateVel (updateVel frVelState (1/60 / 2)).1 (1/60 / 2)).1.panVelX
        = (updateVel frVelState (1/60)).1.panVelX)
    ∧ ((updateVel (updateVel frVelState (1/60 / 2)).1 (1/60 / 2)).1.panVelY
        = (updateVel frVelState (1/60)).1.panVelY)
    ∧ ((updateVel (updateVel frVelState (1/60 / 2)).1 (1/60 / 2)).1.dollyVel
        = (updateVel frVelState (1/60)).1.dollyVel)
    ∧ ((updateVel (updateVel frVelState (1/60 / 2)).1 (1/60 / 2)).1.zoomVel
        = (updateVel frVelState (1/60)).1.zoomVel)
    ∧ ((updateVel (updateVel frVelState (1/60 / 2)).1 (1/60 / 2)).1.fovVel
        = (updateVel frVelState (1/60)).1.fovVel) := by
  have hcq : dampingCoeff frVelState.dampingFactor (1/60 / 2) = 1/2 := by
    rw [show frVelState.dampingFactor = (3 : ℝ)/4 from rfl,
        show (1/60/2 : ℝ) = 1/120 by norm_num]
    exact dampingCoeff_eval_half
  have hf := updateVel_fields frVelState (1/60 / 2) rfl rfl rfl
  have hrotimp : rotActive frVelState → rotActive (updateVel frVelState (1/60 / 2)).1 := by
    intro h
    have hx : (updateVel frVelState (1/60 / 2)).1.rotateVelX = 1/2 := by
      rw [hf.1, if_pos h, hcq, show frVelState.rotateVelX = (1 : ℝ) from rfl]
      norm_num
    unfold rotActive
    rw [hx]
    left
    rw [abs_of_nonneg (by norm_num : (0 : ℝ) ≤ 1/2)]
    norm_num
  have hpanimp : panActive frVelState → panActive (updateVel frVelState (1/60 / 2)).1 := by
    intro h
    have hx : (updateVel frVelState (1/60 / 2)).1.panVelX = 1/2 := by
      rw [hf.2.2.1, if_pos h, hcq, show frVelState.panVelX = (1 : ℝ) from rfl]
      norm_num
    unfold panActive
    rw [hx]
    left
    rw [abs_of_nonneg (by norm_num : (0 : ℝ) ≤ 1/2)]
    norm_num
  have hdolimp : dollyActive frVelState → dollyActive (updateVel frVelState (1/60 / 2)).1 := by
    intro h
    have hx : (updateVel frVelState (1/60 / 2)).1.dollyVel = 1/2 := by
      rw [hf.2.2.2.2.1, if_pos h, hcq, show frVelState.dollyVel = (1 : ℝ) from rfl]
      norm_num
    unfold dollyActive
    rw [hx, abs_of_nonneg (by norm_num : (0 : ℝ) ≤ 1/2)]
    norm_num
  have hzoomimp : zoomActive frVelState → zoomActive (updateVel frVelState (1/60 / 2)).1 := by
    intro h
    have hx : (updateVel frVelState (1/60 / 2)).1.zoomVel = 3/2 := by
      rw [hf.2.2.2.2.2.1, if_pos h, hcq, show frVelState.zoomVel = (2 : ℝ) from rfl]
      norm_num
    unfold zoomActive
    rw [hx, show (3 : ℝ)/2 - 1 = 1/2 by norm_num,
        abs_of_nonneg (by norm_num : (0 : ℝ) ≤ 1/2)]
    norm_num
  have hfovimp : fovActive frVelState → fovActive (updateVel frVelState (1/60 / 2)).1 := by
    intro h
    have hx : (updateVel frVelState (1/60 / 2)).1.fovVel = 3/2 := by
      rw [hf.2.2.2.2.2.2.1, if_pos h, hcq, show frVelState.fovVel = (2 : ℝ) from rfl]
      norm_num
    unfold fovActive
    rw [hx, show (3 : ℝ)/2 - 1 = 1/2 by norm_num,
        abs_of_nonneg (by norm_num : (0 : ℝ) ≤ 1/2)]
    norm_num
  exact update_frame_rate_independence frVelState (1/60) (by norm_num) (by norm_num)
    rfl rfl rfl hrotimp hpanimp hdolimp hzoomimp hfovimp

end DampingProofs
